import Mathlib

/-!
Verification of the PitWall race-simulation engine (`src/pitwall`).

This file shallowly embeds the Python sources `pitwall/models.py`,
`pitwall/config.py` and `pitwall/race.py` into Lean:

* Python floats become `ℚ` (the engine only does field arithmetic and
  comparisons on them);
* the `random.Random` generator becomes an explicit stream of rationals
  (`Rng`), consumed one value per primitive draw: `random()` takes the next
  stream value, `uniform a b = a + (b-a)*random()`,
  `randint a b = a + ⌊random()*(b-a+1)⌋` (the observable contract of the
  Python primitives, given stream values in `[0,1)`);
* in-place mutation of `Driver`/`TireState` objects becomes explicit state
  passing, with every mutation written back into the simulation state
  immediately (mid-lap reads such as `sorted_running` inside
  `pit_wont_lose_position` therefore see partially updated drivers, as in
  the source);
* Python dicts keyed by driver name (`_driver_effects`,
  `_planned_pit_lap`, the `name_to_driver` helpers) become association
  lists looked up by name; competitors are identified by their unique
  name, as the loader guarantees and the theorems assume where needed;
* `time.monotonic`-based wall-clock bookkeeping is not modelled; only the
  presence of a start origin (`started`) matters to the engine logic;
* log messages that interpolate floating-point values keep their fixed
  text and drop the number formatting (no claim inspects those digits);
  the overtake message keeps its position count, which is a natural
  number.
-/

/- Batteries marks the `Rat` field operations `@[irreducible]`, which blocks
kernel evaluation of concrete states (`decide`).  Reducibility is an
elaborator hint with no bearing on soundness; restore it so that witnesses
and counterexamples can be checked by evaluation. -/
set_option allowUnsafeReducibility true
attribute [semireducible] Rat.add Rat.mul Rat.sub Rat.div Rat.neg Rat.inv
attribute [semireducible] Rat.ofScientific

namespace PitWall

/-! ### models.py -/

/-- `TireType` from `models.py`. -/
inductive TireType
  | SOFT
  | MEDIUM
  | HARD
  | WET
  deriving DecidableEq

/-- `SLICK_COMPOUNDS` from `models.py`. -/
def SLICK_COMPOUNDS : List TireType := [.SOFT, .MEDIUM, .HARD]

/-- `TireState` from `models.py`. -/
structure TireState where
  tire_type : TireType
  wear_percent : ℚ := 100
  deriving DecidableEq

/-- `TireState.apply_wear`: wear is clamped at 0. -/
def TireState.apply_wear (t : TireState) (amount : ℚ) : TireState :=
  { t with wear_percent := max 0 (t.wear_percent - amount) }

/-- `TireState.penalty_s`: the four-tier wear step function. -/
def TireState.penalty_s (t : TireState) : ℚ :=
  if 30 < t.wear_percent then 0
  else if 20 ≤ t.wear_percent ∧ t.wear_percent ≤ 30 then 0.5
  else if 10 ≤ t.wear_percent ∧ t.wear_percent < 20 then 1.5
  else 3

/-- `DriverStatus` from `models.py`. -/
inductive DriverStatus
  | RUNNING
  | DNF
  | FINISHED
  deriving DecidableEq

/-- `Driver` from `models.py`. -/
structure Driver where
  name : String
  team_name : String
  skill : ℤ
  car_score : ℤ
  status : DriverStatus := .RUNNING
  lap : ℕ := 0
  total_time_s : ℚ := 0
  last_lap_s : ℚ := 0
  tires : Option TireState := none
  pit_stops : ℕ := 0
  used_compounds : Finset TireType := ∅
  deriving DecidableEq

/-- `Driver.is_active`. -/
def Driver.is_active (d : Driver) : Bool := d.status == .RUNNING

/-- `Driver.ensure_tires`: returns the (possibly freshly mounted) tires and
the updated driver. -/
def Driver.ensure_tires (d : Driver) : TireState × Driver :=
  match d.tires with
  | some t => (t, d)
  | none =>
    let t : TireState := { tire_type := .SOFT, wear_percent := 100 }
    (t, { d with tires := some t, used_compounds := {TireType.SOFT} })

/-- `Driver.needs_pit` (read on an already-ensured driver in the stepper). -/
def Driver.needs_pit (d : Driver) : Bool :=
  (d.ensure_tires).1.wear_percent < 20

/-- The slick-membership test `c in (SOFT, MEDIUM, HARD)` from `models.py`. -/
def isSlick (c : TireType) : Prop := c = .SOFT ∨ c = .MEDIUM ∨ c = .HARD

instance : DecidablePred isSlick := fun c => by unfold isSlick; infer_instance

/-- `Driver.pick_next_compound` from `models.py`. -/
def Driver.pick_next_compound (d : Driver) (raining : Bool) : TireType :=
  if raining then .WET
  else
    let used_slicks := d.used_compounds.filter isSlick
    let firstUnused :=
      if used_slicks.card < 2 then
        SLICK_COMPOUNDS.find? (fun c => !(decide (c ∈ used_slicks)))
      else none
    match firstUnused with
    | some c => c
    | none =>
      if (d.ensure_tires).1.wear_percent < 10 then .HARD else .MEDIUM

/-! ### The random-number stream -/

/-- Explicit model of `random.Random`: a stream of raw draws plus a cursor. -/
structure Rng where
  seq : ℕ → ℚ
  idx : ℕ := 0

/-- One raw draw (Python `random.random()`). -/
def Rng.next (r : Rng) : ℚ × Rng :=
  (r.seq r.idx, { r with idx := r.idx + 1 })

/-- Python `random.uniform a b`. -/
def Rng.uniform (r : Rng) (a b : ℚ) : ℚ × Rng :=
  let (x, r') := r.next
  (a + (b - a) * x, r')

/-- Python `random.randint a b` (inclusive bounds). -/
def Rng.randint (r : Rng) (a b : ℤ) : ℤ × Rng :=
  let (x, r') := r.next
  (a + ⌊x * ((b : ℚ) - (a : ℚ) + 1)⌋, r')

/-- The stream holds genuine `random()` outputs: values in `[0, 1)`. -/
def ValidSeq (σ : ℕ → ℚ) : Prop := ∀ n, 0 ≤ σ n ∧ σ n < 1

/-- `Driver.choose_start_tires` from `models.py` (the cumulative-weight walk
over SOFT 0.55 / MEDIUM 0.30 / HARD 0.15, falling back to the initial SOFT
when no cumulative bound catches the draw). -/
def Driver.choose_start_tires (d : Driver) (raining : Bool) (rng : Rng) :
    Driver × Rng :=
  if raining then
    ({ d with tires := some { tire_type := .WET, wear_percent := 100 },
              used_compounds := {TireType.WET} }, rng)
  else
    let (pick, rng') := rng.next
    let chosen : TireType :=
      if pick ≤ 0.55 then .SOFT
      else if pick ≤ 0.85 then .MEDIUM
      else if pick ≤ 1 then .HARD
      else .SOFT
    ({ d with tires := some { tire_type := chosen, wear_percent := 100 },
              used_compounds := {chosen} }, rng')

/-! ### config.py -/

/-- `SimulationConfig` from `config.py`, with its default values. -/
structure SimulationConfig where
  race_real_seconds : ℚ := 60
  race_sim_max_seconds : ℚ := 3 * 60 * 60
  ui_refresh_hz : ℚ := 12
  max_log_lines : ℕ := 14
  collision_chance_per_lap : ℚ := 0.002
  incident_chance_per_lap : ℚ := 0.008
  red_flag_chance_per_lap : ℚ := 0.002
  dnf_chance_scale : ℚ := 0.25
  collision_dnf_probability : ℚ := 0.35
  red_flag_wait_min_s : ℚ := 6
  red_flag_wait_max_s : ℚ := 16
  red_flag_duration_min_minutes : ℚ := 15
  red_flag_duration_max_minutes : ℚ := 30
  red_flag_cooldown_laps : ℤ := 8
  tire_compound_delta_pct_per_step : ℚ := 0.003
  yellow_flag_min_laps : ℤ := 2
  yellow_flag_max_laps : ℤ := 4
  yellow_pace_multiplier : ℚ := 1.30
  yellow_min_gap_s : ℚ := 0.20
  restart_gap_s : ℚ := 0.30

/-! ### race.py: events, flags, effects -/

/-- `RaceEvent` from `race.py`. -/
structure RaceEvent where
  kind : String
  message : String
  deriving DecidableEq

/-- `FlagState` from `race.py`. -/
inductive FlagState
  | GREEN
  | YELLOW
  | RED
  deriving DecidableEq

/-- `DriverRaceEffects` from `race.py`. -/
structure DriverRaceEffects where
  pace_multiplier : ℚ := 1
  overtake_allowed : Bool := true
  deriving DecidableEq

/-- `DriverFlagObserver.on_flag_change`: the new effects value written for a
driver when the flag changes. -/
def DriverFlagObserver.on_flag_change (config : SimulationConfig)
    (flag : FlagState) : DriverRaceEffects :=
  if flag = .YELLOW then
    { pace_multiplier := config.yellow_pace_multiplier, overtake_allowed := false }
  else
    { pace_multiplier := 1, overtake_allowed := true }

/-- First-match association-list lookup (Python dict access by driver name;
keys are unique in every state the program builds). -/
def dictGet {α : Type} : List (String × α) → String → Option α
  | [], _ => none
  | (k, v) :: rest, key => if k = key then some v else dictGet rest key

/-- `name_to_driver[n]`: first driver with the given name. -/
def findDriver (ds : List Driver) (n : String) : Option Driver :=
  ds.find? (fun d => d.name == n)

/-- Write an in-place mutation of the (unique) driver with the given name
back into the collection. -/
def updateDriver (n : String) (f : Driver → Driver) : List Driver → List Driver
  | [] => []
  | d :: ds => if d.name = n then f d :: ds else d :: updateDriver n f ds

/-- Python `min` on a nonempty list (0 for the empty list, which the source
never passes). -/
def listMin : List ℚ → ℚ
  | [] => 0
  | x :: xs => xs.foldl min x

/-! ### race.py: the simulation state -/

/-- The two `PitStrategy` implementations in `race.py`; the session default
is `NeutralizationPitStrategy`. -/
inductive PitStrategyKind
  | defaultStrategy
  | neutralization
  deriving DecidableEq

/-- `RaceSimulation.__init__` state. `started` stands for
`start_monotonic is not None`; the wall-clock pause bookkeeping is purely
presentational and not modelled. -/
structure RaceSimulation where
  drivers : List Driver
  track_name : String
  track_laps : ℕ
  base_pace_s : ℚ
  avg_pit_stop_s : ℚ
  raining : Bool
  config : SimulationConfig
  pit_strategy : PitStrategyKind := .neutralization
  rng : Rng
  events : List RaceEvent := []
  started : Bool := false
  finished : Bool := false
  flag_state : FlagState := .GREEN
  red_flag_active : Bool := false
  yellow_laps_remaining : ℤ := 0
  driver_effects : List (String × DriverRaceEffects)
  restart_memento : Option (List String) := none
  prepared : Bool := false
  lap_index : ℤ := 0
  last_positions : List String := []
  last_red_flag_lap : ℤ := -10000
  planned_pit_lap : List (String × ℤ) := []

/-- The effects map built in `__init__`: a fresh default record per driver. -/
def initialEffects (drivers : List Driver) : List (String × DriverRaceEffects) :=
  drivers.map (fun d => (d.name, {}))

/-- `RaceSimulation._set_flag`: no-op on an unchanged flag, otherwise store
the flag and notify every per-driver observer. -/
def RaceSimulation.set_flag (s : RaceSimulation) (flag : FlagState) :
    RaceSimulation :=
  if s.flag_state = flag then s
  else
    { s with
      flag_state := flag
      driver_effects := s.driver_effects.map
        (fun p => (p.1, DriverFlagObserver.on_flag_change s.config flag)) }

/-- `RaceSimulation.is_yellow_active`. -/
def RaceSimulation.is_yellow_active (s : RaceSimulation) : Bool :=
  0 < s.yellow_laps_remaining

/-- The sort key of `sorted_running` / `sorted_finished_and_running`. -/
def byTotalTime (a b : Driver) : Prop := a.total_time_s ≤ b.total_time_s

instance : DecidableRel byTotalTime := fun a b => by
  unfold byTotalTime; infer_instance

instance : IsTotal Driver byTotalTime :=
  ⟨fun a b => le_total a.total_time_s b.total_time_s⟩

instance : IsTrans Driver byTotalTime :=
  ⟨fun _ _ _ h h' => le_trans h h'⟩

/-- `RaceSimulation.sorted_running`: RUNNING drivers, stably sorted by total
time (Python's `sorted` is stable; `List.insertionSort` inserts each earlier
element before later elements with an equal key, which is the same order). -/
def RaceSimulation.sorted_running (s : RaceSimulation) : List Driver :=
  (s.drivers.filter (fun d => d.status == DriverStatus.RUNNING)).insertionSort
    byTotalTime

/-- `RaceSimulation.sorted_finished_and_running`: RUNNING and FINISHED by
total time, then DNFs ordered by `(lap, total_time_s)` descending. -/
def RaceSimulation.sorted_finished_and_running (s : RaceSimulation) :
    List Driver :=
  let active := s.drivers.filter
    (fun d => d.status == DriverStatus.RUNNING || d.status == DriverStatus.FINISHED)
  let dnfs := s.drivers.filter (fun d => d.status == DriverStatus.DNF)
  let dnfs_sorted := (dnfs.insertionSort
    (fun a b => Prod.Lex (· ≤ ·) (· ≤ ·) (a.lap, a.total_time_s) (b.lap, b.total_time_s))).reverse
  active.insertionSort byTotalTime ++ dnfs_sorted

/-- `RaceSimulation.pit_wont_lose_position`. -/
def RaceSimulation.pit_wont_lose_position (s : RaceSimulation) (driver : Driver)
    (pit_time_s : ℚ) : Bool :=
  let running := s.sorted_running
  match running.findIdx? (fun d => d.name == driver.name) with
  | none => false
  | some idx =>
    match running.get? (idx + 1) with
    | none => true
    | some behind =>
      pit_time_s + 0.5 < behind.total_time_s - driver.total_time_s

/-- `DefaultPitStrategy.should_pit`. -/
def DefaultPitStrategy.should_pit (d : Driver) (force_compound_change : Bool) :
    Bool :=
  d.needs_pit || force_compound_change

/-- `NeutralizationPitStrategy.should_pit`. -/
def NeutralizationPitStrategy.should_pit (s : RaceSimulation) (d : Driver)
    (force_compound_change : Bool) : Bool :=
  if DefaultPitStrategy.should_pit d force_compound_change then true
  else if !s.is_yellow_active then false
  else if s.raining then false
  else
    let tires := (d.ensure_tires).1
    if tires.tire_type == TireType.WET then false
    else if 35 < tires.wear_percent then false
    else s.pit_wont_lose_position d (s.avg_pit_stop_s + 1)

/-- Dispatch on the session's strategy (the `PitStrategy` protocol). -/
def RaceSimulation.should_pit (s : RaceSimulation) (d : Driver)
    (force_compound_change : Bool) : Bool :=
  match s.pit_strategy with
  | .defaultStrategy => DefaultPitStrategy.should_pit d force_compound_change
  | .neutralization => NeutralizationPitStrategy.should_pit s d force_compound_change

/-- Both strategies pick via `Driver.pick_next_compound`. -/
def RaceSimulation.pick_next_compound (s : RaceSimulation) (d : Driver) :
    TireType :=
  d.pick_next_compound s.raining

/-- `RaceSimulation._log`. -/
def RaceSimulation.log (s : RaceSimulation) (kind message : String) :
    RaceSimulation :=
  { s with events := s.events ++ [{ kind := kind, message := message }] }

/-- `RaceSimulation.pop_new_events`: clamp a negative cursor to 0, return the
tail of the log from the cursor and the new cursor (the full log length). -/
def RaceSimulation.pop_new_events (s : RaceSimulation) (since : ℤ) :
    ℕ × List RaceEvent :=
  let since' : ℤ := if since < 0 then 0 else since
  (s.events.length, s.events.drop since'.toNat)

/-- One iteration of the `d.choose_start_tires(...)` loop of `prepare`. -/
def chooseStep (acc : RaceSimulation) (d : Driver) : RaceSimulation :=
  let (d', rng') := d.choose_start_tires acc.raining acc.rng
  { acc with drivers := updateDriver d.name (fun _ => d') acc.drivers,
             rng := rng' }

/-- The `d.choose_start_tires(...)` loop of `prepare`, writing each mutated
driver back into the collection. -/
def RaceSimulation.chooseAllStartTires (s : RaceSimulation) : RaceSimulation :=
  s.drivers.foldl chooseStep s

/-- The lower end of the dry planned-pit window (`max(1, int(laps*0.35))`). -/
def plannedMinLap (track_laps : ℕ) : ℤ := max 1 ⌊(track_laps : ℚ) * 0.35⌋

/-- The upper end of the dry planned-pit window (`max(min_lap, int(laps*0.65))`). -/
def plannedMaxLap (track_laps : ℕ) : ℤ :=
  max (plannedMinLap track_laps) ⌊(track_laps : ℚ) * 0.65⌋

/-- One iteration of the dry planned-pit-lap draw loop of `prepare`
(`track_laps` is the enclosing session's fixed lap count). -/
def drawStep (track_laps : ℕ) (acc : RaceSimulation) (d : Driver) :
    RaceSimulation :=
  let (planned, rng') := acc.rng.randint (plannedMinLap track_laps)
    (plannedMaxLap track_laps)
  let planned := min planned (max 1 ((track_laps : ℤ) - 2))
  { acc with planned_pit_lap := acc.planned_pit_lap ++ [(d.name, planned)],
             rng := rng' }

/-- The dry-race planned-pit-lap draw loop of `prepare`. -/
def RaceSimulation.drawPlannedPitLaps (s : RaceSimulation) : RaceSimulation :=
  s.drivers.foldl (drawStep s.track_laps) s

/-- `RaceSimulation.prepare`: once per session, mount starting tires and (in
the dry) draw a planned pit lap per driver in the 35%–65% window, capped at
`max 1 (track_laps - 2)`. -/
def RaceSimulation.prepare (s : RaceSimulation) : RaceSimulation :=
  if s.prepared then s
  else
    let s := s.chooseAllStartTires
    let s := if !s.raining then s.drawPlannedPitLaps else s
    let s := { s with last_positions := s.sorted_running.map (fun (d : Driver) => d.name) }
    { s with prepared := true }

/-- `RaceSimulation.start`: idempotently record the clock origin, then
prepare. -/
def RaceSimulation.start (s : RaceSimulation) : RaceSimulation :=
  (if !s.started then { s with started := true } else s).prepare

/-- `RaceSimulation.planned_pit_lap_for`. -/
def RaceSimulation.planned_pit_lap_for (s : RaceSimulation) (n : String) :
    Option ℤ :=
  dictGet s.planned_pit_lap n

/-- `RaceSimulation.race_timer_s`: winner's total once anyone has finished,
otherwise the running leader's total, otherwise 0. -/
def RaceSimulation.race_timer_s (s : RaceSimulation) : ℚ :=
  let finished_times :=
    (s.drivers.filter (fun d => d.status == DriverStatus.FINISHED)).map
      (·.total_time_s)
  if finished_times.isEmpty then
    let running_times :=
      (s.drivers.filter (fun d => d.status == DriverStatus.RUNNING)).map
        (·.total_time_s)
    if running_times.isEmpty then 0 else listMin running_times
  else listMin finished_times

/-- The memento-restoration tail of `RaceSimulation.clear_red_flag`: if a
restart memento is pending, bunch the still-RUNNING captured order to
`leaderTime + index * restart_gap_s`, then discard the memento. -/
def RaceSimulation.clearRestore (s : RaceSimulation) : RaceSimulation :=
  match s.restart_memento with
  | none => s
  | some order =>
    let ordered := order.filter (fun n =>
      match findDriver s.drivers n with
      | some d => d.status == DriverStatus.RUNNING
      | none => false)
    let s :=
      match ordered with
      | [] => s
      | n0 :: _ =>
        let leader_time :=
          match findDriver s.drivers n0 with
          | some d => d.total_time_s
          | none => 0
        let gap_s := s.config.restart_gap_s
        let drivers := s.drivers.map (fun (d : Driver) =>
          match ordered.findIdx? (fun n => n == d.name) with
          | some i => { d with total_time_s := leader_time + i * gap_s }
          | none => d)
        { s with drivers := drivers, last_positions := ordered }
    { s with restart_memento := none }

/-- `RaceSimulation.clear_red_flag`: drop the stoppage, go back to green,
then restore from the memento. -/
def RaceSimulation.clear_red_flag (s : RaceSimulation) : RaceSimulation :=
  let s := { s with red_flag_active := false }
  let s := if s.flag_state = FlagState.RED then s.set_flag .GREEN else s
  s.clearRestore

/-- `RaceSimulation._wear_per_lap`. -/
def wear_per_lap (skill : ℤ) (tire_type : TireType) : ℚ :=
  let base := max 0.6 (2 - (skill : ℚ) * 0.01)
  if tire_type = .WET then base * 0.85 else base

/-- `RaceSimulation._dnf_chance`. -/
def RaceSimulation.dnf_chance (s : RaceSimulation) (skill : ℤ) : ℚ :=
  (0.01 + (100 - (skill : ℚ)) * 0.0001) * s.config.dnf_chance_scale

/-- `RaceSimulation._lap_time_s` (the rng is passed explicitly; the source
reads it from `self`). -/
def RaceSimulation.lap_time_s (s : RaceSimulation) (driver : Driver)
    (tires : TireState) (rng : Rng) : ℚ × Rng :=
  let (scatter, rng) := rng.uniform (-0.3) 0.3
  let tire_penalty := tires.penalty_s
  let compound_step : ℤ :=
    if tires.tire_type = .SOFT then -1
    else if tires.tire_type = .HARD then 1
    else 0
  let tire_penalty :=
    tire_penalty + s.base_pace_s * s.config.tire_compound_delta_pct_per_step
      * (compound_step : ℚ)
  let wet_penalty : ℚ :=
    if s.raining ∧ tires.tire_type ≠ .WET then 8
    else if ¬s.raining ∧ tires.tire_type = .WET then 5
    else 0
  (s.base_pace_s - (driver.skill : ℚ) * 0.007 - (driver.car_score : ℚ) * 0.003
    + scatter + tire_penalty + wet_penalty, rng)

/-! ### race.py: step_lap

The per-driver loop body mutates only the driver collection, the rng and the
event log; everything else the loop reads (`config`, `track_laps`,
`raining`, `_driver_effects`, `_planned_pit_lap`, `_yellow_laps_remaining`,
…) is fixed for the duration of the loop.  `Mut` is that mutable part;
`withMut` re-assembles the full session view that strategy code such as
`pit_wont_lose_position` reads mid-loop. -/

/-- The state mutated by the per-driver loop of `step_lap`. -/
structure Mut where
  drivers : List Driver
  rng : Rng
  events : List RaceEvent

/-- The session as seen mid-loop. -/
def RaceSimulation.withMut (s : RaceSimulation) (m : Mut) : RaceSimulation :=
  { s with drivers := m.drivers, rng := m.rng, events := m.events }

/-- Write driver `i` back. -/
def Mut.setD (m : Mut) (i : ℕ) (d : Driver) : Mut :=
  { m with drivers := m.drivers.set i d }

/-- Append one narrated event. -/
def Mut.addEvent (m : Mut) (kind message : String) : Mut :=
  { m with events := m.events ++ [{ kind := kind, message := message }] }

/-- The pace multiplier applied under yellow: the driver's effects record,
or — when the effects entry is missing — the `yellow_pace_multiplier`
fallback of `getattr` in `step_lap`. -/
def RaceSimulation.yellowMultiplier (s : RaceSimulation) (n : String) : ℚ :=
  match dictGet s.driver_effects n with
  | some e => e.pace_multiplier
  | none => s.config.yellow_pace_multiplier

/-- The `force_compound_change` computation of `step_lap` (dry races: the
planned lap has been reached, no stop yet, fewer than two slicks used). -/
def forceCompoundChange (s0 : RaceSimulation) (d : Driver) : Bool :=
  if s0.raining then false
  else
    match dictGet s0.planned_pit_lap d.name with
    | none => false
    | some planned =>
      decide (d.pit_stops = 0) && decide (planned ≤ (d.lap : ℤ)) &&
        decide ((d.used_compounds.filter isSlick).card < 2)

/-- Stage 5 of the per-driver loop: wear, lap time (scaled under yellow),
lap counter, finish check. -/
def stageLap (s0 : RaceSimulation) (yellow_active : Bool) (i : ℕ) (m : Mut)
    (yt : Bool) : Mut × Bool :=
  match m.drivers.get? i with
  | none => (m, yt)
  | some d =>
    let tires := (d.ensure_tires).1
    let d := (d.ensure_tires).2
    let wear := wear_per_lap d.skill tires.tire_type
    let tires := tires.apply_wear wear
    let d := { d with tires := some tires }
    let lap_time := ((s0.withMut m).lap_time_s d tires m.rng).1
    let m := { m with rng := ((s0.withMut m).lap_time_s d tires m.rng).2 }
    let lap_time :=
      if yellow_active then lap_time * s0.yellowMultiplier d.name else lap_time
    let d := { d with
      last_lap_s := lap_time
      total_time_s := d.total_time_s + lap_time
      lap := d.lap + 1 }
    if s0.track_laps ≤ d.lap then
      let d := { d with status := .FINISHED }
      ((m.setD i d).addEvent "FIN" (d.name ++ " przekracza linię mety!"), yt)
    else (m.setD i d, yt)

/-- Stage 4: the pit decision and stop. -/
def stagePit (s0 : RaceSimulation) (yellow_active : Bool) (i : ℕ) (m : Mut)
    (yt : Bool) : Mut × Bool :=
  match m.drivers.get? i with
  | none => (m, yt)
  | some d =>
    let force := forceCompoundChange s0 d
    if (s0.withMut m).should_pit d force then
      let next_compound := (s0.withMut m).pick_next_compound d
      let extra := (m.rng.uniform 0 2).1
      let pit_time := s0.avg_pit_stop_s + extra
      let m := { m with rng := (m.rng.uniform 0 2).2 }
      let d := { d with
        total_time_s := d.total_time_s + pit_time
        pit_stops := d.pit_stops + 1
        tires := some { tire_type := next_compound, wear_percent := 100 }
        used_compounds := insert next_compound d.used_compounds }
      let m := (m.setD i d).addEvent "PIT" (d.name ++ " zjeżdża do pit.")
      stageLap s0 yellow_active i m yt
    else stageLap s0 yellow_active i m yt

/-- Stage 3: the independent mechanical-retirement draw. -/
def stageDnf (s0 : RaceSimulation) (yellow_active : Bool) (i : ℕ) (m : Mut)
    (yt : Bool) : Mut × Bool :=
  match m.drivers.get? i with
  | none => (m, yt)
  | some d =>
    let r := (m.rng.next).1
    let m := { m with rng := (m.rng.next).2 }
    if r < (s0.withMut m).dnf_chance d.skill then
      (((m.setD i { d with status := .DNF }).addEvent "DNF"
          (d.name ++ " odpada (awaria/wypadek).")), true)
    else stagePit s0 yellow_active i m yt

/-- Stage 2: the generic incident draw (time loss only). -/
def stageIncident (s0 : RaceSimulation) (yellow_active : Bool) (i : ℕ)
    (m : Mut) (yt : Bool) : Mut × Bool :=
  match m.drivers.get? i with
  | none => (m, yt)
  | some d =>
    let r := (m.rng.next).1
    let m := { m with rng := (m.rng.next).2 }
    if r < s0.config.incident_chance_per_lap then
      let loss := (m.rng.uniform 0.4 2.2).1
      let m := { m with rng := (m.rng.uniform 0.4 2.2).2 }
      let d := { d with total_time_s := d.total_time_s + loss }
      let m := (m.setD i d).addEvent "INC"
        ("Incydent na torze: " ++ d.name ++ ".")
      stageDnf s0 yellow_active i m yt
    else stageDnf s0 yellow_active i m yt

/-- Stage 1: the collision draw (DNF sub-draw or time penalty). -/
def stageCollision (s0 : RaceSimulation) (yellow_active : Bool) (i : ℕ)
    (m : Mut) (yt : Bool) : Mut × Bool :=
  match m.drivers.get? i with
  | none => (m, yt)
  | some d =>
    let r1 := (m.rng.next).1
    let m := { m with rng := (m.rng.next).2 }
    if r1 < s0.config.collision_chance_per_lap then
      let r2 := (m.rng.next).1
      let m := { m with rng := (m.rng.next).2 }
      if r2 < s0.config.collision_dnf_probability then
        (((m.setD i { d with status := .DNF }).addEvent "DNF"
            (d.name ++ " odpada po kolizji (DNF).")), true)
      else
        let penalty := (m.rng.uniform 3 10).1
        let m := { m with rng := (m.rng.uniform 3 10).2 }
        let d := { d with total_time_s := d.total_time_s + penalty }
        let m := (m.setD i d).addEvent "COL" ("Kolizja: " ++ d.name ++ ".")
        stageIncident s0 yellow_active i m yt
    else stageIncident s0 yellow_active i m yt

/-- One iteration of `for d in self.drivers` in `step_lap`: skip non-RUNNING
drivers, promote drivers already past the lap count to FINISHED, otherwise
ensure tires and run collision → incident → retirement → pit → lap. -/
def processDriver (s0 : RaceSimulation) (yellow_active : Bool) (i : ℕ)
    (m : Mut) (yt : Bool) : Mut × Bool :=
  match m.drivers.get? i with
  | none => (m, yt)
  | some d =>
    if d.status ≠ DriverStatus.RUNNING then (m, yt)
    else if s0.track_laps ≤ d.lap then
      (m.setD i { d with status := .FINISHED }, yt)
    else
      let m := m.setD i (d.ensure_tires).2
      stageCollision s0 yellow_active i m yt

/-- The whole per-driver loop. -/
def RaceSimulation.runLapLoop (s : RaceSimulation) (yellow_active : Bool) :
    Mut × Bool :=
  (List.range s.drivers.length).foldl
    (fun (p : Mut × Bool) i => processDriver s yellow_active i p.1 p.2)
    ({ drivers := s.drivers, rng := s.rng, events := s.events }, false)

/-- The overtake message, gained positions included. -/
def ovtMessage (n : String) (gained : ℕ) : String :=
  let noun := if gained = 1 then "pozycję" else "pozycje"
  "Wyprzedzenie: " ++ n ++ " zyskuje " ++ toString gained ++ " " ++ noun ++ "."

/-- The dict comprehension `{name: i for i, name in enumerate(before)}`:
for a repeated name the last index wins. -/
def lastIdxOf (l : List String) (n : String) : Option ℕ :=
  l.enum.foldl (fun acc p => if p.2 = n then some p.1 else acc) none

/-- The event (if any) the loop body of `_emit_overtakes` logs for the
`(index, name)` pair `p` of the after-order. -/
def emitEvent? (before : List String) (p : ℕ × String) : Option RaceEvent :=
  match lastIdxOf before p.2 with
  | none => none
  | some prev =>
    if p.1 < prev then
      let gained := prev - p.1
      if 1 ≤ gained then some { kind := "OVT", message := ovtMessage p.2 gained }
      else none
    else none

/-- One iteration of the `_emit_overtakes` loop. -/
def emitStep (before : List String) (s : RaceSimulation) (p : ℕ × String) :
    RaceSimulation :=
  match lastIdxOf before p.2 with
  | none => s
  | some prev =>
    if p.1 < prev then
      let gained := prev - p.1
      if 1 ≤ gained then s.log "OVT" (ovtMessage p.2 gained) else s
    else s

/-- `RaceSimulation._emit_overtakes`. -/
def RaceSimulation.emit_overtakes (s : RaceSimulation)
    (before after : List String) : RaceSimulation :=
  after.enum.foldl (emitStep before) s

/-- The spec's reading of overtake detection: one overtake event per
competitor whose index decreased, in after-order. -/
def specOvertakeEvents (before after : List String) : List RaceEvent :=
  after.enum.filterMap (emitEvent? before)

/-- One step of the yellow-flag order re-imposition: look the captured name
up, remember the first total, and force every later one to at least the
previous total plus the minimum gap. -/
def enforceStep (min_gap : ℚ) (p : List Driver × Option ℚ) (n : String) :
    List Driver × Option ℚ :=
  match findDriver p.1 n with
  | none => p
  | some d =>
    match p.2 with
    | none => (p.1, some d.total_time_s)
    | some prev =>
      let newTotal := max d.total_time_s (prev + min_gap)
      (updateDriver n (fun e => { e with total_time_s := newTotal }) p.1,
        some newTotal)

/-- The yellow-flag order re-imposition: walk the captured (still-RUNNING)
order, forcing each total to at least the previous total plus the minimum
gap. -/
def enforceYellowOrder (min_gap : ℚ) (ordered : List String)
    (drivers : List Driver) : List Driver :=
  (ordered.foldl (enforceStep min_gap) (drivers, none)).1

/-- The `if yellow_active and order_before:` block of `step_lap`. -/
def RaceSimulation.postYellow (s : RaceSimulation) (order_before : List String) :
    RaceSimulation :=
  let ordered := order_before.filter (fun n =>
    match findDriver s.drivers n with
    | some d => d.status == DriverStatus.RUNNING
    | none => false)
  { s with
    drivers := enforceYellowOrder s.config.yellow_min_gap_s ordered s.drivers
    last_positions := ordered }

/-- The no-yellow branch: overtake detection against the previous order. -/
def RaceSimulation.postGreen (s : RaceSimulation) : RaceSimulation :=
  let now_positions := s.sorted_running.map (fun (d : Driver) => d.name)
  let s :=
    if s.last_positions ≠ [] then s.emit_overtakes s.last_positions now_positions
    else s
  { s with last_positions := now_positions }

/-- Arming / extending the yellow flag at the end of a lap (min clamped over
max, never shrinking an active yellow, logged only when extending). -/
def RaceSimulation.armYellow (s : RaceSimulation) : RaceSimulation :=
  let min_laps := s.config.yellow_flag_min_laps
  let max_laps :=
    if s.config.yellow_flag_max_laps < min_laps then min_laps
    else s.config.yellow_flag_max_laps
  let new_duration := (s.rng.randint min_laps max_laps).1
  let s := { s with rng := (s.rng.randint min_laps max_laps).2 }
  let before_remaining := s.yellow_laps_remaining
  let s := { s with yellow_laps_remaining := max s.yellow_laps_remaining new_duration }
  let s := s.set_flag .YELLOW
  if before_remaining < s.yellow_laps_remaining then
    s.log "YEL" "Żółta flaga."
  else s

/-- The red-flag entry block of `step_lap`: capture the memento, flag RED, add the
sampled stoppage time to every non-DNF driver, log. -/
def RaceSimulation.redFlagEntry (s : RaceSimulation) : RaceSimulation :=
  let s := { s with
    last_red_flag_lap := s.lap_index
    red_flag_active := true
    restart_memento := some (s.sorted_running.map (fun (d : Driver) => d.name)) }
  let s := s.set_flag .RED
  let (rf_minutes, rng) := s.rng.uniform s.config.red_flag_duration_min_minutes
    s.config.red_flag_duration_max_minutes
  let rf_seconds := rf_minutes * 60
  let drivers := s.drivers.map (fun (d : Driver) =>
    if d.status = DriverStatus.RUNNING ∨ d.status = DriverStatus.FINISHED then
      { d with total_time_s := d.total_time_s + rf_seconds }
    else d)
  let s := { s with rng := rng, drivers := drivers }
  s.log "RF" "CZERWONA FLAGA! Postój doliczony do czasu wyścigu."

/-- The flag bookkeeping at the start of a stepped lap: re-assert the
yellow/green flag, decrement an active yellow, advance the lap counter. -/
def RaceSimulation.preLapFlag (s : RaceSimulation) (yellow_active : Bool) :
    RaceSimulation :=
  let s :=
    if yellow_active then
      let s := s.set_flag .YELLOW
      { s with yellow_laps_remaining := max 0 (s.yellow_laps_remaining - 1) }
    else s.set_flag .GREEN
  { s with lap_index := s.lap_index + 1 }

/-- The end of a stepped lap: mark the session finished when nobody is left
RUNNING, then arm or extend the yellow flag if this lap qualified. -/
def RaceSimulation.postLapWrap (s : RaceSimulation) (yellow_triggered : Bool) :
    RaceSimulation :=
  let s :=
    if s.drivers.any (fun d => d.status == DriverStatus.RUNNING) then s
    else { (s.log "END" "Wyścig zakończony.") with finished := true }
  if ¬s.finished ∧ yellow_triggered = true then s.armYellow else s

/-- The body of a stepped lap (after the early-return guards and the red-flag
check): flag bookkeeping, the per-driver loop, yellow order enforcement or
overtake detection, the all-done check, and yellow arming. -/
def RaceSimulation.lapBody (s : RaceSimulation) : RaceSimulation :=
  let yellow_active := s.is_yellow_active
  let s1 := s.preLapFlag yellow_active
  let order_before :=
    if yellow_active then s1.sorted_running.map (fun (d : Driver) => d.name)
    else []
  let m : Mut := (s1.runLapLoop yellow_active).1
  let yellow_triggered : Bool := (s1.runLapLoop yellow_active).2
  let s2 := s1.withMut m
  let s3 :=
    if yellow_active ∧ order_before ≠ [] then s2.postYellow order_before
    else s2.postGreen
  s3.postLapWrap yellow_triggered

/-- The FIA 3-hour stop condition of `step_lap`. -/
def RaceSimulation.fiaExceeded (s : RaceSimulation) : Prop :=
  (s.drivers.filter (fun d => d.status == DriverStatus.RUNNING)) ≠ [] ∧
    s.config.race_sim_max_seconds ≤
      listMin ((s.drivers.filter (fun d => d.status == DriverStatus.RUNNING)).map
        (fun d => d.total_time_s))

instance (s : RaceSimulation) : Decidable s.fiaExceeded := by
  unfold RaceSimulation.fiaExceeded; infer_instance

/-- `RaceSimulation.step_lap`.  Calling it before `start` raises
(`RuntimeError`), modelled by `Except.error`; every other outcome is `ok`. -/
def RaceSimulation.step_lap (s : RaceSimulation) : Except String RaceSimulation :=
  if s.started = false then .error "Race not started"
  else if s.finished then .ok s
  else if s.red_flag_active then .ok s
  else if s.fiaExceeded then
    .ok { (s.log "FIA" "Limit 3h przekroczony: wyścig zakończony (FIA).") with
          finished := true }
  else if s.config.red_flag_cooldown_laps ≤ s.lap_index - s.last_red_flag_lap then
    let r := (s.rng.next).1
    let s1 := { s with rng := (s.rng.next).2 }
    if r < s.config.red_flag_chance_per_lap then .ok s1.redFlagEntry
    else .ok s1.lapBody
  else .ok s.lapBody

/-! ### Concrete fixtures used by witnesses and counterexamples -/

/-- A healthy mid-race driver on fresh mediums. -/
def fixDriver (n : String) (t : ℚ) : Driver :=
  { name := n, team_name := "T", skill := 80, car_score := 80,
    total_time_s := t,
    tires := some { tire_type := .MEDIUM, wear_percent := 100 },
    used_compounds := {TireType.MEDIUM} }

/-- A three-driver dry session on the default configuration, mid-race. -/
def fixSim : RaceSimulation :=
  { drivers := [fixDriver "A" 100, fixDriver "B" 200, fixDriver "C" 150]
    track_name := "X"
    track_laps := 5
    base_pace_s := 80
    avg_pit_stop_s := 20
    raining := false
    config := {}
    rng := { seq := fun _ => 1/2 }
    started := true
    driver_effects :=
      initialEffects [fixDriver "A" 100, fixDriver "B" 200, fixDriver "C" 150] }

/-- A session frozen under a red flag, restart memento pending, where the
field is 100 s spread out. -/
def fixRedState : RaceSimulation :=
  { fixSim with
    drivers := [fixDriver "A" 100, fixDriver "B" 200]
    flag_state := .RED
    red_flag_active := true
    restart_memento := some ["A", "B"]
    driver_effects := initialEffects [fixDriver "A" 100, fixDriver "B" 200] }

/-- A configuration that forces a red flag with a fixed 20-minute stoppage. -/
def fixRedConfig : SimulationConfig :=
  { red_flag_chance_per_lap := 1
    red_flag_duration_min_minutes := 20
    red_flag_duration_max_minutes := 20 }

/-- `fixSim` with the red flag forced. -/
def fixSimRF : RaceSimulation := { fixSim with config := fixRedConfig }

/-- A session where A has already finished (total 5000) while B is still
running (total 4000), and the next step triggers a fixed 20-minute red
flag. -/
def fixTimerSim : RaceSimulation :=
  { fixSim with
    drivers := [{ fixDriver "A" 5000 with status := .FINISHED, lap := 5 },
                fixDriver "B" 4000]
    config := fixRedConfig
    rng := { seq := fun _ => 0 }
    driver_effects :=
      initialEffects [fixDriver "A" 5000, fixDriver "B" 4000] }

/-- A yellow-flag session whose per-driver effects map is empty (the state
claim (c) of the spec's error taxonomy talks about). -/
def fixNoEffects : RaceSimulation :=
  { fixSim with
    drivers := [fixDriver "D" 100]
    yellow_laps_remaining := 2
    flag_state := .YELLOW
    driver_effects := [] }

/-- A ten-lap dry session, not yet prepared, with an all-zeros draw
stream. -/
def fixPrepSim : RaceSimulation :=
  { fixSim with
    drivers := [{ fixDriver "A" 0 with tires := none, used_compounds := ∅ }]
    track_laps := 10
    rng := { seq := fun _ => 0 }
    started := false
    driver_effects := initialEffects [fixDriver "A" 0] }

/-- A two-lap yellow session used as the yellow-ordering witness. -/
def fixYellowSim : RaceSimulation :=
  { fixSim with
    yellow_laps_remaining := 2
    flag_state := .YELLOW
    driver_effects :=
      (initialEffects [fixDriver "A" 100, fixDriver "B" 200, fixDriver "C" 150]).map
        (fun p => (p.1,
          ({ pace_multiplier := 1.3, overtake_allowed := false } : DriverRaceEffects))) }

/-- Adding a uniform stoppage time to a driver's total (the per-driver
effect of red-flag entry on non-DNF drivers). -/
def shiftTotal (c : ℚ) (d : Driver) : Driver :=
  { d with total_time_s := d.total_time_s + c }

/-- The leader's total time of a (sorted) collection — the `leader_time` a
restart re-derivation starts from. -/
def headTotal : List Driver → ℚ
  | d :: _ => d.total_time_s
  | [] => 0

/-- The per-driver total-time re-derivation of `clear_red_flag`:
`leaderTime + positionIndex * gap` for a driver captured in the restart
order, untouched otherwise. -/
def restartAssign (order : List String) (lt gap : ℚ) (d : Driver) : Driver :=
  match order.findIdx? (fun n => n == d.name) with
  | some i => { d with total_time_s := lt + (i : ℚ) * gap }
  | none => d

/-- The stoppage seconds a red-flag entry samples and adds
(`uniform(rf_min, rf_max)` minutes, times 60). -/
def redStopSeconds (s : RaceSimulation) : ℚ :=
  (s.config.red_flag_duration_min_minutes
    + (s.config.red_flag_duration_max_minutes
        - s.config.red_flag_duration_min_minutes) * s.rng.seq s.rng.idx) * 60

/-- A fixture `Mut` for the stage-level witnesses. -/
def fixMutD : Mut :=
  { drivers := [fixDriver "D" 100], rng := { seq := fun _ => 1/2 }, events := [] }

/-- Sanity of the competitor records: skills and car scores are the 0–100
scale the data model prescribes (only the upper bounds matter to the
engine's arithmetic). -/
def SkillsOK (l : List Driver) : Prop :=
  ∀ d ∈ l, d.skill ≤ 100 ∧ d.car_score ≤ 100

/-- Sanity of the pace-multiplier effects: multipliers are nonnegative, as
every value the observers ever write (1 or the yellow multiplier) is. -/
def EffectsOK (s0 : RaceSimulation) : Prop :=
  0 ≤ s0.config.yellow_pace_multiplier ∧
  ∀ p ∈ s0.driver_effects, 0 ≤ p.2.pace_multiplier

/-- Sanity of the track/tuning parameters: nonnegative pit and stoppage
durations, and a baseline pace that dominates the (at most
`0.7 + 0.3 + 0.3`-second) skill/car/scatter credits plus the soft-compound
discount — true of any realistic configuration, e.g. the defaults. -/
def LapCfgOK (s0 : RaceSimulation) : Prop :=
  0 ≤ s0.avg_pit_stop_s ∧
  0 ≤ s0.base_pace_s ∧
  0 ≤ s0.config.tire_compound_delta_pct_per_step ∧
  1.3 + s0.base_pace_s * s0.config.tire_compound_delta_pct_per_step
    ≤ s0.base_pace_s

instance (l : List Driver) : Decidable (SkillsOK l) := by
  unfold SkillsOK
  infer_instance

instance (s0 : RaceSimulation) : Decidable (EffectsOK s0) := by
  unfold EffectsOK
  infer_instance

instance (s0 : RaceSimulation) : Decidable (LapCfgOK s0) := by
  unfold LapCfgOK
  infer_instance

/-- How one per-driver stage of the lap loop may transform the mutable
state: the draw stream is unchanged (only its cursor advances), only driver
`i` is touched, and driver `i` keeps its identity and skills, can only lose
RUNNING status, and (for in-range draws on a sane configuration) never gets
a smaller total time. -/
def MutStepAt (s0 : RaceSimulation) (i : ℕ) (m m' : Mut) : Prop :=
  m'.rng.seq = m.rng.seq ∧
  m'.drivers.length = m.drivers.length ∧
  (∀ j, j ≠ i → m'.drivers.get? j = m.drivers.get? j) ∧
  (∀ d, m.drivers.get? i = some d → ∃ d', m'.drivers.get? i = some d' ∧
    d'.name = d.name ∧ d'.skill = d.skill ∧ d'.car_score = d.car_score ∧
    (d'.status = DriverStatus.RUNNING → d.status = DriverStatus.RUNNING) ∧
    (ValidSeq m.rng.seq → LapCfgOK s0 → SkillsOK m.drivers → EffectsOK s0 →
      d.total_time_s ≤ d'.total_time_s))

/-- The same guarantees accumulated over the whole loop (any subset of
drivers touched), plus: a driver that was not RUNNING is left untouched. -/
def LoopRel (s0 : RaceSimulation) (m m' : Mut) : Prop :=
  m'.rng.seq = m.rng.seq ∧
  m'.drivers.length = m.drivers.length ∧
  (∀ j d, m.drivers.get? j = some d → ∃ d', m'.drivers.get? j = some d' ∧
    d'.name = d.name ∧ d'.skill = d.skill ∧ d'.car_score = d.car_score ∧
    (d'.status = DriverStatus.RUNNING → d.status = DriverStatus.RUNNING) ∧
    (d.status ≠ DriverStatus.RUNNING → d' = d) ∧
    (ValidSeq m.rng.seq → LapCfgOK s0 → SkillsOK m.drivers → EffectsOK s0 →
      d.total_time_s ≤ d'.total_time_s))

/-- Pointwise guarantees of the yellow-flag order enforcement: identity,
status, skills and lap counts are untouched and totals never decrease. -/
def DriversMono (l l' : List Driver) : Prop :=
  l'.length = l.length ∧
  ∀ j d, l.get? j = some d → ∃ d', l'.get? j = some d' ∧
    d'.name = d.name ∧ d'.status = d.status ∧ d'.skill = d.skill ∧
    d'.car_score = d.car_score ∧ d'.lap = d.lap ∧
    d.total_time_s ≤ d'.total_time_s

/-- Just the monotonicity of totals, per position. -/
def TotalsMono (l l' : List Driver) : Prop :=
  l'.length = l.length ∧
  ∀ j d d', l.get? j = some d → l'.get? j = some d' →
    d.total_time_s ≤ d'.total_time_s

/-- The shape of every planned-pit-lap entry a dry `prepare` writes: a draw
from the window, capped at `max 1 (track_laps - 2)`. -/
def plannedPitBound (track_laps : ℕ) (p : ℤ) : Prop :=
  ∃ draw : ℤ, plannedMinLap track_laps ≤ draw ∧ draw ≤ plannedMaxLap track_laps ∧
    p = min draw (max 1 ((track_laps : ℤ) - 2))

/-! ## Theorems -/

/-! ### Generic helpers -/

theorem foldl_inv {α β : Type} (P : β → Prop) (f : β → α → β) (l : List α)
    (b : β) (hb : P b) (hf : ∀ b a, P b → P (f b a)) : P (l.foldl f b) := by
  induction l generalizing b with
  | nil => exact hb
  | cons x xs ih => exact ih _ (hf _ _ hb)

theorem dictGet_mem {α : Type} {l : List (String × α)} {k : String} {v : α}
    (h : dictGet l k = some v) : (k, v) ∈ l := by
  induction l with
  | nil => simp [dictGet] at h
  | cons p rest ih =>
    obtain ⟨k', v'⟩ := p
    rw [dictGet] at h
    by_cases hk : k' = k
    · rw [if_pos hk] at h
      obtain rfl : v' = v := Option.some.inj h
      subst hk
      exact List.mem_cons_self _ _
    · rw [if_neg hk] at h
      exact List.mem_cons_of_mem _ (ih h)

theorem exists_dictGet {α : Type} {l : List (String × α)} {k : String}
    (h : ∃ v, (k, v) ∈ l) : ∃ v, dictGet l k = some v := by
  induction l with
  | nil => simp at h
  | cons p rest ih =>
    obtain ⟨k', v'⟩ := p
    rw [dictGet]
    by_cases hk : k' = k
    · exact ⟨v', by rw [if_pos hk]⟩
    · rw [if_neg hk]
      apply ih
      obtain ⟨v, hv⟩ := h
      rcases List.mem_cons.mp hv with heq | hmem
      · exact absurd (congrArg Prod.fst heq).symm hk
      · exact ⟨v, hmem⟩

theorem randint_bounds {r : Rng} (hσ : ValidSeq r.seq) {a b : ℤ} (hab : a ≤ b) :
    a ≤ (r.randint a b).1 ∧ (r.randint a b).1 ≤ b := by
  obtain ⟨h0, h1⟩ := hσ r.idx
  have hfst : (r.randint a b).1 = a + ⌊r.seq r.idx * ((b : ℚ) - (a : ℚ) + 1)⌋ := rfl
  have hc : (0 : ℚ) < (b : ℚ) - (a : ℚ) + 1 := by
    have : (a : ℚ) ≤ (b : ℚ) := by exact_mod_cast hab
    linarith
  constructor
  · have : (0 : ℤ) ≤ ⌊r.seq r.idx * ((b : ℚ) - (a : ℚ) + 1)⌋ :=
      Int.floor_nonneg.mpr (mul_nonneg h0 hc.le)
    omega
  · have hlt : ⌊r.seq r.idx * ((b : ℚ) - (a : ℚ) + 1)⌋ < b - a + 1 := by
      apply Int.floor_lt.mpr
      push_cast
      calc r.seq r.idx * ((b : ℚ) - (a : ℚ) + 1)
          < 1 * ((b : ℚ) - (a : ℚ) + 1) := by
            exact mul_lt_mul_of_pos_right h1 hc
        _ = (b : ℚ) - (a : ℚ) + 1 := one_mul _
    omega

theorem randint_seq (r : Rng) (a b : ℤ) : ((r.randint a b).2).seq = r.seq := rfl

/-! ### prepare -/

theorem choose_start_tires_name (d : Driver) (raining : Bool) (rng : Rng) :
    ((d.choose_start_tires raining rng).1).name = d.name := by
  unfold Driver.choose_start_tires
  by_cases h : raining = true <;> simp [h, Rng.next]

theorem choose_start_tires_seq (d : Driver) (raining : Bool) (rng : Rng) :
    ((d.choose_start_tires raining rng).2).seq = rng.seq := by
  unfold Driver.choose_start_tires
  by_cases h : raining = true <;> simp [h, Rng.next]

theorem updateDriver_map_name {n : String} {f : Driver → Driver}
    (hf : ∀ x, (f x).name = n) (l : List Driver) :
    (updateDriver n f l).map Driver.name = l.map Driver.name := by
  induction l with
  | nil => rfl
  | cons d ds ih =>
    rw [updateDriver]
    by_cases h : d.name = n
    · simp [h, hf]
    · simp [h, ih]

theorem chooseStep_frame (acc : RaceSimulation) (d : Driver) :
    (chooseStep acc d).prepared = acc.prepared ∧
    (chooseStep acc d).planned_pit_lap = acc.planned_pit_lap ∧
    (chooseStep acc d).raining = acc.raining ∧
    (chooseStep acc d).track_laps = acc.track_laps ∧
    (chooseStep acc d).rng.seq = acc.rng.seq ∧
    (chooseStep acc d).drivers.map Driver.name = acc.drivers.map Driver.name := by
  unfold chooseStep
  refine ⟨rfl, rfl, rfl, rfl, ?_, ?_⟩
  · exact choose_start_tires_seq d acc.raining acc.rng
  · exact updateDriver_map_name
      (fun _ => choose_start_tires_name d acc.raining acc.rng) acc.drivers

theorem chooseAllStartTires_frame (s : RaceSimulation) :
    (s.chooseAllStartTires).prepared = s.prepared ∧
    (s.chooseAllStartTires).planned_pit_lap = s.planned_pit_lap ∧
    (s.chooseAllStartTires).raining = s.raining ∧
    (s.chooseAllStartTires).track_laps = s.track_laps ∧
    (s.chooseAllStartTires).rng.seq = s.rng.seq ∧
    (s.chooseAllStartTires).drivers.map Driver.name = s.drivers.map Driver.name := by
  unfold RaceSimulation.chooseAllStartTires
  refine foldl_inv
    (fun acc => acc.prepared = s.prepared ∧
      acc.planned_pit_lap = s.planned_pit_lap ∧
      acc.raining = s.raining ∧
      acc.track_laps = s.track_laps ∧
      acc.rng.seq = s.rng.seq ∧
      acc.drivers.map Driver.name = s.drivers.map Driver.name)
    chooseStep s.drivers s ⟨rfl, rfl, rfl, rfl, rfl, rfl⟩ ?_
  intro b a hb
  obtain ⟨h1, h2, h3, h4, h5, h6⟩ := hb
  obtain ⟨g1, g2, g3, g4, g5, g6⟩ := chooseStep_frame b a
  exact ⟨g1.trans h1, g2.trans h2, g3.trans h3, g4.trans h4, g5.trans h5,
    g6.trans h6⟩

theorem drawStep_frame (L : ℕ) (acc : RaceSimulation) (d : Driver) :
    (drawStep L acc d).prepared = acc.prepared ∧
    (drawStep L acc d).raining = acc.raining ∧
    (drawStep L acc d).track_laps = acc.track_laps ∧
    (drawStep L acc d).rng.seq = acc.rng.seq ∧
    (drawStep L acc d).drivers = acc.drivers := by
  unfold drawStep
  exact ⟨rfl, rfl, rfl, rfl, rfl⟩

theorem drawStep_planned (L : ℕ) (acc : RaceSimulation) (d : Driver)
    (hσ : ValidSeq acc.rng.seq) :
    ∃ p : ℤ, (drawStep L acc d).planned_pit_lap
        = acc.planned_pit_lap ++ [(d.name, p)] ∧ plannedPitBound L p := by
  have hab : plannedMinLap L ≤ plannedMaxLap L := le_max_left _ _
  obtain ⟨hlo, hhi⟩ := randint_bounds hσ hab
  refine ⟨_, rfl, ⟨(acc.rng.randint (plannedMinLap L) (plannedMaxLap L)).1,
    hlo, hhi, rfl⟩⟩

theorem drawLoop_spec (L : ℕ) (l : List Driver) :
    ∀ acc : RaceSimulation, ValidSeq acc.rng.seq →
      (∀ kv ∈ acc.planned_pit_lap, plannedPitBound L kv.2) →
      (∀ kv ∈ (l.foldl (drawStep L) acc).planned_pit_lap,
        plannedPitBound L kv.2) ∧
      (∀ d ∈ l, ∃ v, (d.name, v) ∈ (l.foldl (drawStep L) acc).planned_pit_lap) := by
  induction l with
  | nil =>
    intro acc _ hb
    exact ⟨hb, by simp⟩
  | cons d ds ih =>
    intro acc hσ hb
    simp only [List.foldl_cons]
    obtain ⟨p, hp, hpb⟩ := drawStep_planned L acc d hσ
    have hσ' : ValidSeq (drawStep L acc d).rng.seq := by
      rw [(drawStep_frame L acc d).2.2.2.1]; exact hσ
    have hb' : ∀ kv ∈ (drawStep L acc d).planned_pit_lap, plannedPitBound L kv.2 := by
      intro kv hkv
      rw [hp] at hkv
      rcases List.mem_append.mp hkv with h | h
      · exact hb kv h
      · simp only [List.mem_singleton] at h
        subst h; exact hpb
    obtain ⟨h1, h2⟩ := ih (drawStep L acc d) hσ' hb'
    refine ⟨h1, ?_⟩
    intro e he
    rcases List.mem_cons.mp he with rfl | hmem
    · -- the entry written for `e` in this step persists through the rest
      have hmem0 : (e.name, p) ∈ (drawStep L acc e).planned_pit_lap := by
        rw [hp]; simp
      have : (e.name, p) ∈ (ds.foldl (drawStep L) (drawStep L acc e)).planned_pit_lap := by
        refine foldl_inv (fun b => (e.name, p) ∈ b.planned_pit_lap)
          (drawStep L) ds _ hmem0 ?_
        intro b a hbmem
        exact List.mem_append_left _ hbmem
      exact ⟨p, this⟩
    · exact h2 e hmem

theorem prepare_prepared (s : RaceSimulation) : (s.prepare).prepared = true := by
  unfold RaceSimulation.prepare
  by_cases h : s.prepared <;> simp [h]

theorem prepare_of_prepared {s : RaceSimulation} (h : s.prepared = true) :
    s.prepare = s := by
  unfold RaceSimulation.prepare
  simp [h]

/-- C9 (amended): `prepare` is idempotent (the second call is a no-op on the
whole session state); and on a dry, fresh session the first call assigns
every competitor a planned pit lap of the form `min draw (max 1 (laps-2))`
with the draw taken from `[max(1,⌊0.35·laps⌋), max(min_lap,⌊0.65·laps⌋)]` —
approximately the middle third of the race, though the floored lower end can
fall just below one third. -/
theorem c9_prepare_idempotent_window (s : RaceSimulation)
    (hprep : s.prepared = false) (hempty : s.planned_pit_lap = [])
    (hdry : s.raining = false) (hσ : ValidSeq s.rng.seq) :
    s.prepare.prepare = s.prepare ∧
    ∀ d ∈ s.drivers, ∃ p : ℤ,
      s.prepare.planned_pit_lap_for d.name = some p ∧
      plannedPitBound s.track_laps p := by
  obtain ⟨c1, c2, c3, c4, c5, c6⟩ := chooseAllStartTires_frame s
  constructor
  · exact prepare_of_prepared (prepare_prepared s)
  · intro d hd
    have hplanned : s.prepare.planned_pit_lap
        = (s.chooseAllStartTires.drawPlannedPitLaps).planned_pit_lap := by
      unfold RaceSimulation.prepare
      rw [hprep]
      simp only [Bool.false_eq_true, if_false, c3, hdry, Bool.not_false, if_pos]
    have hσ' : ValidSeq s.chooseAllStartTires.rng.seq := by rw [c5]; exact hσ
    have hb0 : ∀ kv ∈ s.chooseAllStartTires.planned_pit_lap,
        plannedPitBound s.chooseAllStartTires.track_laps kv.2 := by
      rw [c2, hempty]; intro kv h; simp at h
    obtain ⟨hall, hmem⟩ := drawLoop_spec s.chooseAllStartTires.track_laps
      s.chooseAllStartTires.drivers s.chooseAllStartTires hσ' hb0
    have hname : d.name ∈ s.chooseAllStartTires.drivers.map Driver.name := by
      rw [c6]; exact List.mem_map_of_mem Driver.name hd
    obtain ⟨d', hd', hdname⟩ := List.mem_map.mp hname
    obtain ⟨v, hv⟩ := hmem d' hd'
    rw [hdname] at hv
    have : ∃ v, dictGet
        (s.chooseAllStartTires.drawPlannedPitLaps).planned_pit_lap d.name
          = some v :=
      exists_dictGet ⟨v, hv⟩
    obtain ⟨p, hp⟩ := this
    refine ⟨p, ?_, ?_⟩
    · unfold RaceSimulation.planned_pit_lap_for
      rw [hplanned]; exact hp
    · have := hall _ (dictGet_mem hp)
      rw [c4] at this
      exact this


/-- C8: `step_lap` before `start()` is a precondition violation: it fails
immediately with the hard `RuntimeError` (modelled as `Except.error`) and
returns no successor state — no session or competitor state is modified. -/
theorem c8_step_before_start_errors (s : RaceSimulation)
    (h : s.started = false) :
    s.step_lap = Except.error "Race not started" := by
  simp [RaceSimulation.step_lap, h]

theorem c8_witness :
    fixPrepSim.started = false ∧
    fixPrepSim.step_lap = Except.error "Race not started" :=
  ⟨rfl, c8_step_before_start_errors fixPrepSim rfl⟩

/-- C10: polling the event log never raises: the poll is total, a negative
cursor is clamped to 0 (returning the whole log), a cursor at or past the
log length returns `[]`, in general the slice from the clamped cursor is
returned, and the returned cursor is always the current log length — so
repeated polling with the returned cursor yields each event exactly once. -/
theorem c10_pop_new_events_spec (s : RaceSimulation) (since : ℤ) :
    (s.pop_new_events since).1 = s.events.length ∧
    (s.pop_new_events since).2 = s.events.drop (max 0 since).toNat ∧
    (since < 0 → (s.pop_new_events since).2 = s.events) ∧
    ((s.events.length : ℤ) ≤ since → (s.pop_new_events since).2 = []) := by
  unfold RaceSimulation.pop_new_events
  refine ⟨rfl, ?_, ?_, ?_⟩
  · by_cases h : since < 0 <;> simp only [h, if_true, if_false, reduceIte]
    · have : max 0 since = 0 := by omega
      simp [this]
    · have : max 0 since = since := by omega
      simp [this]
  · intro h
    simp [h]
  · intro h
    have hs : ¬ since < 0 := by
      have := s.events.length.cast_nonneg (α := ℤ); omega
    simp only [hs, if_false, reduceIte]
    refine List.drop_eq_nil_of_le ?_
    omega

theorem c10_witness :
    (fixSim.pop_new_events (-5)).1 = fixSim.events.length ∧
    (fixSim.pop_new_events (-5)).2 = fixSim.events.drop (max 0 (-5)).toNat ∧
    ((-5 : ℤ) < 0 → (fixSim.pop_new_events (-5)).2 = fixSim.events) ∧
    ((fixSim.events.length : ℤ) ≤ -5 → (fixSim.pop_new_events (-5)).2 = []) :=
  c10_pop_new_events_spec fixSim (-5)

/-- C1 counterexample: clearing a red flag *decreases* a trailing
competitor's total time.  In `fixRedState`, B trails the leader by 100 s;
`clear_red_flag` rewrites B's total to `leaderTime + 1 · 0.30 = 100.3`,
strictly below its previous 200. -/
theorem c1_counterexample :
    (findDriver fixRedState.drivers "B").map (fun d => d.total_time_s)
      = some 200 ∧
    (findDriver fixRedState.clear_red_flag.drivers "B").map
      (fun d => d.total_time_s) = some (100.3 : ℚ) ∧
    (100.3 : ℚ) < 200 := by decide

/-- C4 counterexample: a competitor who gains `k = 2` positions produces a
single overtake event (crediting 2 positions in its message), not `k = 2`
events.  Before `[A,B,C]`, after `[C,A,B]`: C's index improves from 2 to 0,
yet exactly one event is appended. -/
theorem c4_counterexample :
    lastIdxOf ["A", "B", "C"] "C" = some 2 ∧
    (["C", "A", "B"] : List String).findIdx? (fun n => n == "C") = some 0 ∧
    (fixSim.emit_overtakes ["A", "B", "C"] ["C", "A", "B"]).events.length
      = fixSim.events.length + 1 ∧
    (1 : ℕ) ≠ 2 := by decide

/-- C6 failing input: with A already FINISHED at 5000 s and B RUNNING, the
timer reads the winner's 5000 — but the next `step_lap` triggers a red flag
whose 20-minute stoppage is added to FINISHED competitors too, so the timer
moves to 6200 instead of remaining constant. -/
theorem c6_timer_not_frozen :
    fixTimerSim.race_timer_s = 5000 ∧
    fixTimerSim.step_lap.toOption.map RaceSimulation.race_timer_s
      = some 6200 ∧
    (5000 : ℚ) ≠ 6200 := by decide

/-- C7 counterexample: with the per-driver effects entry missing, a yellow
lap multiplies the lap time by the configured yellow pace multiplier
(`getattr` fallback 1.30), not by 1: D's lap comes out as
`1.3 · 79.2 = 102.96`. -/
theorem c7_counterexample :
    dictGet fixNoEffects.driver_effects "D" = none ∧
    fixNoEffects.step_lap.toOption.map
      (fun s => (findDriver s.drivers "D").map (fun d => d.last_lap_s))
      = some (some (102.96 : ℚ)) ∧
    (102.96 : ℚ) = 1.3 * 79.2 ∧
    (102.96 : ℚ) ≠ 1 * 79.2 := by decide

theorem c9_witness :
    fixPrepSim.prepared = false ∧
    fixPrepSim.prepare.prepare = fixPrepSim.prepare ∧
    ∀ d ∈ fixPrepSim.drivers, ∃ p : ℤ,
      fixPrepSim.prepare.planned_pit_lap_for d.name = some p ∧
      plannedPitBound fixPrepSim.track_laps p := by
  have h := c9_prepare_idempotent_window fixPrepSim rfl rfl rfl
    (fun n => ⟨le_refl 0, by show (0 : ℚ) < 1; norm_num⟩)
  exact ⟨rfl, h.1, h.2⟩

/-! ### listMin -/

theorem foldl_min_le (xs : List ℚ) (a : ℚ) :
    xs.foldl min a ≤ a ∧ ∀ y ∈ xs, xs.foldl min a ≤ y := by
  induction xs generalizing a with
  | nil => simp
  | cons x xs ih =>
    simp only [List.foldl_cons]
    obtain ⟨h1, h2⟩ := ih (min a x)
    refine ⟨le_trans h1 (min_le_left _ _), ?_⟩
    intro y hy
    rcases List.mem_cons.mp hy with rfl | hmem
    · exact le_trans h1 (min_le_right _ _)
    · exact h2 y hmem

theorem foldl_min_mem (xs : List ℚ) (a : ℚ) :
    xs.foldl min a = a ∨ xs.foldl min a ∈ xs := by
  induction xs generalizing a with
  | nil => left; rfl
  | cons x xs ih =>
    simp only [List.foldl_cons]
    rcases ih (min a x) with h | h
    · rcases min_choice a x with hm | hm
      · left; rw [h, hm]
      · right; rw [h, hm]; exact List.mem_cons_self _ _
    · right; exact List.mem_cons_of_mem _ h

theorem listMin_le {l : List ℚ} : ∀ y ∈ l, listMin l ≤ y := by
  cases l with
  | nil => intro y hy; simp at hy
  | cons x xs =>
    intro y hy
    rcases List.mem_cons.mp hy with rfl | hmem
    · exact (foldl_min_le xs y).1
    · exact (foldl_min_le xs x).2 y hmem

theorem listMin_mem {l : List ℚ} (hne : l ≠ []) : listMin l ∈ l := by
  cases l with
  | nil => exact absurd rfl hne
  | cons x xs =>
    rcases foldl_min_mem xs x with h | h
    · rw [listMin, h]; exact List.mem_cons_self _ _
    · exact List.mem_cons_of_mem _ h

/-- C6 (amended): once any competitor has FINISHED status, `race_timer_s`
equals the winner's total time — the minimum `total_time_s` among FINISHED
competitors.  It is not frozen afterwards: a later red-flag stoppage adds
the stoppage time to every finished competitor's total and raises it (see
the failing-input theorem). -/
theorem c6_race_timer_winner (s : RaceSimulation) (d0 : Driver)
    (h0 : d0 ∈ s.drivers) (hf : d0.status = DriverStatus.FINISHED) :
    (∀ d ∈ s.drivers, d.status = DriverStatus.FINISHED →
      s.race_timer_s ≤ d.total_time_s) ∧
    (∃ d ∈ s.drivers, d.status = DriverStatus.FINISHED ∧
      s.race_timer_s = d.total_time_s) := by
  have hmem : d0 ∈ s.drivers.filter (fun d => d.status == DriverStatus.FINISHED) :=
    List.mem_filter.mpr ⟨h0, by simp [hf]⟩
  have hne : ((s.drivers.filter (fun d => d.status == DriverStatus.FINISHED)).map
      (fun d => d.total_time_s)) ≠ [] := by
    simp only [ne_eq, List.map_eq_nil_iff]
    intro h
    rw [h] at hmem
    simp at hmem
  have htimer : s.race_timer_s =
      listMin ((s.drivers.filter (fun d => d.status == DriverStatus.FINISHED)).map
        (fun d => d.total_time_s)) := by
    unfold RaceSimulation.race_timer_s
    rw [if_neg]
    simp only [List.isEmpty_eq_true]
    exact hne
  constructor
  · intro d hd hdf
    rw [htimer]
    exact listMin_le _ (List.mem_map_of_mem _
      (List.mem_filter.mpr ⟨hd, by simp [hdf]⟩))
  · have := listMin_mem hne
    obtain ⟨d, hdmem, hdtot⟩ := List.mem_map.mp this
    obtain ⟨hdd, hds⟩ := List.mem_filter.mp hdmem
    refine ⟨d, hdd, by simpa using hds, ?_⟩
    rw [htimer, hdtot]

theorem c6_witness :
    (∀ d ∈ fixTimerSim.drivers, d.status = DriverStatus.FINISHED →
      fixTimerSim.race_timer_s ≤ d.total_time_s) ∧
    (∃ d ∈ fixTimerSim.drivers, d.status = DriverStatus.FINISHED ∧
      fixTimerSim.race_timer_s = d.total_time_s) :=
  c6_race_timer_winner fixTimerSim
    { fixDriver "A" 5000 with status := .FINISHED, lap := 5 }
    (List.mem_cons_self _ _) rfl

/-- C4 (amended): `_emit_overtakes` appends, in after-order, exactly one
overtake event for each competitor whose index decreased — crediting all
positions gained in that single event — and appends nothing else; no other
session state changes.  (A competitor gaining k positions yields one event,
not k events; see the counterexample.) -/
theorem c4_emit_overtakes_spec (s : RaceSimulation)
    (before after : List String) :
    (s.emit_overtakes before after).events
      = s.events ++ specOvertakeEvents before after ∧
    (s.emit_overtakes before after).drivers = s.drivers := by
  unfold RaceSimulation.emit_overtakes specOvertakeEvents
  suffices h : ∀ (l : List (ℕ × String)) (s : RaceSimulation),
      (l.foldl (emitStep before) s).events
        = s.events ++ l.filterMap (emitEvent? before) ∧
      (l.foldl (emitStep before) s).drivers = s.drivers by
    exact h after.enum s
  intro l
  induction l with
  | nil => intro s; simp
  | cons p rest ih =>
    intro s
    simp only [List.foldl_cons, List.filterMap_cons]
    have hstep : (emitStep before s p).events
          = s.events ++ (emitEvent? before p).toList ∧
        (emitStep before s p).drivers = s.drivers := by
      unfold emitStep emitEvent?
      rcases h : lastIdxOf before p.2 with _ | prev
      · simp
      · dsimp only
        by_cases hlt : p.1 < prev
        · rw [if_pos hlt, if_pos hlt]
          by_cases hg : 1 ≤ prev - p.1
          · rw [if_pos hg, if_pos hg]
            exact ⟨rfl, rfl⟩
          · rw [if_neg hg, if_neg hg]
            simp
        · rw [if_neg hlt, if_neg hlt]
          simp
    obtain ⟨h1, h2⟩ := ih (emitStep before s p)
    rw [h1, hstep.1, h2, hstep.2]
    rcases he : emitEvent? before p with _ | ev
    · simp
    · simp

/-! ### step_lap totality and stageLap -/

theorem ensure_tires_of_some {d : Driver} {t : TireState} (h : d.tires = some t) :
    d.ensure_tires = (t, d) := by
  unfold Driver.ensure_tires
  rw [h]

theorem get?_set_self_of_get? {α : Type} {l : List α} {i : ℕ} {d : α}
    (h : l.get? i = some d) (a : α) : (l.set i a).get? i = some a := by
  have hi : i < l.length := by
    by_contra hc
    rw [List.get?_eq_none.mpr (le_of_not_lt hc)] at h
    exact Option.noConfusion h
  rw [List.get?_eq_getElem?, List.getElem?_set_self hi]

theorem step_lap_ok_of_started {s : RaceSimulation} (h : s.started = true) :
    ∃ s', s.step_lap = Except.ok s' := by
  unfold RaceSimulation.step_lap
  rw [h]
  simp only [Bool.true_eq_false, if_false, reduceIte]
  split
  · exact ⟨_, rfl⟩
  · split
    · exact ⟨_, rfl⟩
    · split
      · exact ⟨_, rfl⟩
      · split
        · split
          · exact ⟨_, rfl⟩
          · exact ⟨_, rfl⟩
        · exact ⟨_, rfl⟩

/-- C7 (amended): a competitor whose per-competitor effect state is missing
from the effects map is handled without any failure, but during a yellow-flag
lap its lap time is multiplied by the *configured yellow pace multiplier*
(the `getattr` fallback), not by 1; and `step_lap` as a whole never raises
once the session is started (the overtake-permission flag of the effects
record is never consulted by the stepper at all). -/
theorem c7_missing_effects_fallback (s0 : RaceSimulation) (i : ℕ) (m : Mut)
    (yt : Bool) (d : Driver) (t0 : TireState)
    (hd : m.drivers.get? i = some d) (ht : d.tires = some t0)
    (hmiss : dictGet s0.driver_effects d.name = none) :
    s0.yellowMultiplier d.name = s0.config.yellow_pace_multiplier ∧
    (∃ d', ((stageLap s0 true i m yt).1).drivers.get? i = some d' ∧
      d'.last_lap_s =
        ((s0.withMut { m with rng := m.rng }).lap_time_s
            { d with tires := some (t0.apply_wear
                (wear_per_lap d.skill t0.tire_type)) }
            (t0.apply_wear (wear_per_lap d.skill t0.tire_type)) m.rng).1
          * s0.config.yellow_pace_multiplier ∧
      d'.total_time_s = d.total_time_s + d'.last_lap_s) ∧
    (∀ s : RaceSimulation, s.started = true → ∃ s', s.step_lap = Except.ok s') := by
  have hmult : s0.yellowMultiplier d.name = s0.config.yellow_pace_multiplier := by
    unfold RaceSimulation.yellowMultiplier
    rw [hmiss]
  refine ⟨hmult, ?_, fun s hs => step_lap_ok_of_started hs⟩
  unfold stageLap
  rw [hd]
  dsimp only
  rw [ensure_tires_of_some ht]
  dsimp only
  rw [hmult]
  split
  · exact ⟨_, get?_set_self_of_get? hd _, rfl, rfl⟩
  · exact ⟨_, get?_set_self_of_get? hd _, rfl, rfl⟩

theorem c7_witness :
    fixNoEffects.yellowMultiplier (fixDriver "D" 100).name
      = fixNoEffects.config.yellow_pace_multiplier ∧
    (∃ d', ((stageLap fixNoEffects true 0 fixMutD false).1).drivers.get? 0
        = some d' ∧
      d'.last_lap_s =
        ((fixNoEffects.withMut { fixMutD with rng := fixMutD.rng }).lap_time_s
            { fixDriver "D" 100 with
              tires := some ((⟨.MEDIUM, 100⟩ : TireState).apply_wear
                (wear_per_lap (fixDriver "D" 100).skill
                  (⟨.MEDIUM, 100⟩ : TireState).tire_type)) }
            ((⟨.MEDIUM, 100⟩ : TireState).apply_wear
              (wear_per_lap (fixDriver "D" 100).skill
                (⟨.MEDIUM, 100⟩ : TireState).tire_type))
            fixMutD.rng).1 * fixNoEffects.config.yellow_pace_multiplier ∧
      d'.total_time_s = (fixDriver "D" 100).total_time_s + d'.last_lap_s) ∧
    (∀ s : RaceSimulation, s.started = true → ∃ s', s.step_lap = Except.ok s') :=
  c7_missing_effects_fallback fixNoEffects 0 fixMutD false (fixDriver "D" 100)
    ⟨.MEDIUM, 100⟩ rfl rfl rfl

/-! ### set_flag frame -/

theorem set_flag_flag (s : RaceSimulation) (f : FlagState) :
    (s.set_flag f).flag_state = f := by
  unfold RaceSimulation.set_flag
  split
  · assumption
  · rfl

theorem set_flag_frame (s : RaceSimulation) (f : FlagState) :
    (s.set_flag f).drivers = s.drivers ∧
    (s.set_flag f).rng = s.rng ∧
    (s.set_flag f).events = s.events ∧
    (s.set_flag f).started = s.started ∧
    (s.set_flag f).finished = s.finished ∧
    (s.set_flag f).red_flag_active = s.red_flag_active ∧
    (s.set_flag f).restart_memento = s.restart_memento ∧
    (s.set_flag f).config = s.config ∧
    (s.set_flag f).yellow_laps_remaining = s.yellow_laps_remaining ∧
    (s.set_flag f).track_laps = s.track_laps ∧
    (s.set_flag f).last_positions = s.last_positions ∧
    (s.set_flag f).raining = s.raining ∧
    (s.set_flag f).base_pace_s = s.base_pace_s ∧
    (s.set_flag f).avg_pit_stop_s = s.avg_pit_stop_s ∧
    (s.set_flag f).planned_pit_lap = s.planned_pit_lap ∧
    (s.set_flag f).lap_index = s.lap_index ∧
    (s.set_flag f).last_red_flag_lap = s.last_red_flag_lap ∧
    (s.set_flag f).pit_strategy = s.pit_strategy := by
  unfold RaceSimulation.set_flag
  split <;>
    exact ⟨rfl, rfl, rfl, rfl, rfl, rfl, rfl, rfl, rfl, rfl, rfl, rfl, rfl,
      rfl, rfl, rfl, rfl, rfl⟩

/-! ### uniform shifts preserve the running order -/

theorem shiftTotal_status (c : ℚ) (d : Driver) :
    (shiftTotal c d).status = d.status := rfl

theorem byTotalTime_shift (c : ℚ) (a b : Driver) :
    byTotalTime (shiftTotal c a) (shiftTotal c b) ↔ byTotalTime a b := by
  unfold byTotalTime shiftTotal
  simp

theorem orderedInsert_shift (c : ℚ) (x : Driver) (l : List Driver) :
    (l.map (shiftTotal c)).orderedInsert byTotalTime (shiftTotal c x)
      = (l.orderedInsert byTotalTime x).map (shiftTotal c) := by
  induction l with
  | nil => rfl
  | cons y ys ih =>
    simp only [List.map_cons, List.orderedInsert]
    by_cases h : byTotalTime x y
    · rw [if_pos ((byTotalTime_shift c x y).mpr h), if_pos h]
      simp
    · rw [if_neg (fun hc => h ((byTotalTime_shift c x y).mp hc)), if_neg h]
      simp only [List.map_cons, ih]

theorem insertionSort_shift (c : ℚ) (l : List Driver) :
    (l.map (shiftTotal c)).insertionSort byTotalTime
      = (l.insertionSort byTotalTime).map (shiftTotal c) := by
  induction l with
  | nil => rfl
  | cons x xs ih =>
    simp only [List.insertionSort, ih, orderedInsert_shift]

theorem filter_running_redmap (c : ℚ) (l : List Driver) :
    ((l.map (fun d =>
        if d.status = DriverStatus.RUNNING ∨ d.status = DriverStatus.FINISHED
        then shiftTotal c d else d)).filter
      (fun d => d.status == DriverStatus.RUNNING))
      = (l.filter (fun d => d.status == DriverStatus.RUNNING)).map
          (shiftTotal c) := by
  induction l with
  | nil => rfl
  | cons d ds ih =>
    simp only [List.map_cons, List.filter_cons]
    by_cases h : d.status = DriverStatus.RUNNING
    · rw [if_pos (Or.inl h)]
      simp only [shiftTotal_status, h]
      simp [ih]
    · by_cases h2 : d.status = DriverStatus.FINISHED
      · rw [if_pos (Or.inr h2)]
        simp only [shiftTotal_status, h2]
        simp [ih, h]
      · have hcond : ¬(d.status = DriverStatus.RUNNING ∨
            d.status = DriverStatus.FINISHED) := fun hc => hc.elim h h2
        rw [if_neg hcond]
        simp [h, ih]

/-! ### the red-flag entry path -/

theorem redFlagEntry_spec (s : RaceSimulation) :
    s.redFlagEntry.drivers = s.drivers.map (fun d =>
        if d.status = DriverStatus.RUNNING ∨ d.status = DriverStatus.FINISHED
        then shiftTotal (redStopSeconds s) d else d) ∧
    s.redFlagEntry.flag_state = FlagState.RED ∧
    s.redFlagEntry.red_flag_active = true ∧
    s.redFlagEntry.restart_memento
      = some (s.sorted_running.map (fun d => d.name)) ∧
    s.redFlagEntry.started = s.started ∧
    s.redFlagEntry.finished = s.finished := by
  obtain ⟨f1, f2, f3, f4, f5, f6, f7, f8, _⟩ :=
    set_flag_frame { s with
      last_red_flag_lap := s.lap_index
      red_flag_active := true
      restart_memento := some (s.sorted_running.map (fun d => d.name)) }
      FlagState.RED
  have hflag := set_flag_flag { s with
      last_red_flag_lap := s.lap_index
      red_flag_active := true
      restart_memento := some (s.sorted_running.map (fun d => d.name)) }
      FlagState.RED
  unfold RaceSimulation.redFlagEntry
  dsimp only [RaceSimulation.log, Rng.uniform, Rng.next]
  simp only [f1, f2, f3, f4, f5, f6, f7, f8, hflag]
  exact ⟨rfl, trivial, trivial, trivial, trivial, trivial⟩

/-- C5: on a lap step that triggers a red flag, one stoppage duration is
sampled from the configured minute range (so `c ∈ [60·min, 60·max]`
seconds; with a fixed 20-minute configuration, exactly 1200 s), that same
`c` is added to every non-retired (RUNNING or FINISHED) competitor's total
while DNF competitors are untouched, the relative running order is
preserved, the flag reads Red with the stoppage armed and the pre-stoppage
order captured in the memento, and a subsequent `step_lap` is a no-op
(returns the state unchanged) until the external clear call. -/
theorem c5_red_flag_stop (s s' : RaceSimulation)
    (hstart : s.started = true) (hfin : s.finished = false)
    (hred : s.red_flag_active = false)
    (hfia : ¬ s.fiaExceeded)
    (hcool : s.config.red_flag_cooldown_laps ≤ s.lap_index - s.last_red_flag_lap)
    (hdraw : s.rng.seq s.rng.idx < s.config.red_flag_chance_per_lap)
    (hσ : ValidSeq s.rng.seq)
    (hmm : s.config.red_flag_duration_min_minutes
      ≤ s.config.red_flag_duration_max_minutes)
    (h : s.step_lap = Except.ok s') :
    ∃ c : ℚ,
      60 * s.config.red_flag_duration_min_minutes ≤ c ∧
      c ≤ 60 * s.config.red_flag_duration_max_minutes ∧
      (∀ i d, s.drivers.get? i = some d → s'.drivers.get? i = some
        (if d.status = DriverStatus.RUNNING ∨ d.status = DriverStatus.FINISHED
         then shiftTotal c d else d)) ∧
      s'.flag_state = FlagState.RED ∧
      s'.red_flag_active = true ∧
      s'.restart_memento = some (s.sorted_running.map (fun d => d.name)) ∧
      s'.sorted_running.map (fun d => d.name)
        = s.sorted_running.map (fun d => d.name) ∧
      s'.step_lap = Except.ok s' := by
  have hs' : ({ s with rng := { seq := s.rng.seq, idx := s.rng.idx + 1 } }
      : RaceSimulation).redFlagEntry = s' := by
    unfold RaceSimulation.step_lap at h
    rw [if_neg (show ¬(s.started = false) by simp [hstart])] at h
    rw [if_neg (show ¬(s.finished = true) by simp [hfin])] at h
    rw [if_neg (show ¬(s.red_flag_active = true) by simp [hred])] at h
    rw [if_neg hfia, if_pos hcool] at h
    rw [show s.rng.next
      = (s.rng.seq s.rng.idx, { seq := s.rng.seq, idx := s.rng.idx + 1 })
      from rfl] at h
    dsimp only [] at h
    rw [if_pos hdraw] at h
    exact Except.ok.inj h
  obtain ⟨g1, g2, g3, g4, g5, g6⟩ :=
    redFlagEntry_spec ({ s with rng := { seq := s.rng.seq, idx := s.rng.idx + 1 } }
      : RaceSimulation)
  rw [hs'] at g1 g2 g3 g4 g5 g6
  set c := redStopSeconds ({ s with
    rng := { seq := s.rng.seq, idx := s.rng.idx + 1 } } : RaceSimulation)
    with hc
  have hcval : c = (s.config.red_flag_duration_min_minutes
      + (s.config.red_flag_duration_max_minutes
          - s.config.red_flag_duration_min_minutes)
        * s.rng.seq (s.rng.idx + 1)) * 60 := rfl
  obtain ⟨hx0, hx1⟩ := hσ (s.rng.idx + 1)
  have hdiff : 0 ≤ s.config.red_flag_duration_max_minutes
      - s.config.red_flag_duration_min_minutes := by linarith
  refine ⟨c, ?_, ?_, ?_, g2, g3, g4, ?_, ?_⟩
  · rw [hcval]
    nlinarith [mul_nonneg hdiff hx0]
  · rw [hcval]
    have : (s.config.red_flag_duration_max_minutes
        - s.config.red_flag_duration_min_minutes) * s.rng.seq (s.rng.idx + 1)
        ≤ (s.config.red_flag_duration_max_minutes
            - s.config.red_flag_duration_min_minutes) * 1 := by
      apply mul_le_mul_of_nonneg_left hx1.le hdiff
    nlinarith
  · intro i d hd
    rw [g1, List.get?_map, hd]
    rfl
  · unfold RaceSimulation.sorted_running
    rw [g1, filter_running_redmap, insertionSort_shift, List.map_map]
    rfl
  · unfold RaceSimulation.step_lap
    rw [g5, hstart, g6, hfin, g3]
    simp

theorem c5_witness :
    ∃ s' : RaceSimulation, fixSimRF.step_lap = Except.ok s' ∧
      ∃ c : ℚ,
        60 * fixSimRF.config.red_flag_duration_min_minutes ≤ c ∧
        c ≤ 60 * fixSimRF.config.red_flag_duration_max_minutes ∧
        (∀ i d, fixSimRF.drivers.get? i = some d → s'.drivers.get? i = some
          (if d.status = DriverStatus.RUNNING ∨ d.status = DriverStatus.FINISHED
           then shiftTotal c d else d)) ∧
        s'.flag_state = FlagState.RED ∧
        s'.red_flag_active = true ∧
        s'.restart_memento = some (fixSimRF.sorted_running.map (fun d => d.name)) ∧
        s'.sorted_running.map (fun d => d.name)
          = fixSimRF.sorted_running.map (fun d => d.name) ∧
        s'.step_lap = Except.ok s' := by
  obtain ⟨s', hs'⟩ := @step_lap_ok_of_started fixSimRF rfl
  refine ⟨s', hs', c5_red_flag_stop fixSimRF s' rfl rfl rfl (by decide)
    (by decide) (by decide)
    (fun n => ⟨by show (0 : ℚ) ≤ 1/2; norm_num, by show (1/2 : ℚ) < 1; norm_num⟩)
    (by decide) hs'⟩

/-! ### the per-driver loop: stage relations -/

theorem ensure_tires_frame (d : Driver) :
    ((d.ensure_tires).2).name = d.name ∧
    ((d.ensure_tires).2).skill = d.skill ∧
    ((d.ensure_tires).2).car_score = d.car_score ∧
    ((d.ensure_tires).2).status = d.status ∧
    ((d.ensure_tires).2).total_time_s = d.total_time_s ∧
    ((d.ensure_tires).2).lap = d.lap := by
  cases h : d.tires <;> simp [Driver.ensure_tires, h]

theorem mutStepAt_refl (s0 : RaceSimulation) (i : ℕ) (m : Mut) :
    MutStepAt s0 i m m := by
  refine ⟨rfl, rfl, fun j _ => rfl, fun d hd => ⟨d, hd, rfl, rfl, rfl,
    fun h => h, fun _ _ _ _ => le_refl _⟩⟩

theorem skillsOK_of_stepAt {s0 : RaceSimulation} {i : ℕ} {m m' : Mut}
    (hrel : MutStepAt s0 i m m') (hsk : SkillsOK m.drivers) :
    SkillsOK m'.drivers := by
  obtain ⟨hseq, hlen, hother, hi⟩ := hrel
  intro d' hd'
  obtain ⟨j, hj⟩ := List.mem_iff_get?.mp hd'
  by_cases hij : j = i
  · subst hij
    rcases hmj : m.drivers.get? j with _ | d
    · exfalso
      have h1 : m.drivers.length ≤ j := List.get?_eq_none.mp hmj
      have h2 : ¬ m'.drivers.length ≤ j := by
        intro hle
        rw [List.get?_eq_none.mpr hle] at hj
        exact Option.noConfusion hj
      rw [hlen] at h2
      exact h2 h1
    · obtain ⟨d'', hd'', _, hskill, hcar, _, _⟩ := hi d hmj
      rw [hj] at hd''
      obtain rfl := Option.some.inj hd''
      have := hsk d (List.mem_iff_get?.mpr ⟨j, hmj⟩)
      rw [hskill, hcar]
      exact this
  · rw [hother j hij] at hj
    exact hsk d' (List.mem_iff_get?.mpr ⟨j, hj⟩)

theorem mutStepAt_trans {s0 : RaceSimulation} {i : ℕ} {m1 m2 m3 : Mut}
    (h12 : MutStepAt s0 i m1 m2) (h23 : MutStepAt s0 i m2 m3) :
    MutStepAt s0 i m1 m3 := by
  obtain ⟨a1, a2, a3, a4⟩ := h12
  obtain ⟨b1, b2, b3, b4⟩ := h23
  refine ⟨b1.trans a1, b2.trans a2, fun j hj => (b3 j hj).trans (a3 j hj), ?_⟩
  intro d hd
  obtain ⟨d2, hd2, n2, s2, c2, r2, t2⟩ := a4 d hd
  obtain ⟨d3, hd3, n3, s3, c3, r3, t3⟩ := b4 d2 hd2
  refine ⟨d3, hd3, n3.trans n2, s3.trans s2, c3.trans c2,
    fun h => r2 (r3 h), ?_⟩
  intro hσ hcfg hsk heff
  have hσ2 : ValidSeq m2.rng.seq := by rw [a1]; exact hσ
  have hsk2 : SkillsOK m2.drivers := skillsOK_of_stepAt ⟨a1, a2, a3, a4⟩ hsk
  exact le_trans (t2 hσ hcfg hsk heff) (t3 hσ2 hcfg hsk2 heff)

theorem penalty_s_nonneg (t : TireState) : 0 ≤ t.penalty_s := by
  unfold TireState.penalty_s
  split
  · exact le_refl 0
  · split
    · norm_num
    · split
      · norm_num
      · norm_num

theorem lap_time_s_seq (s : RaceSimulation) (d : Driver) (t : TireState)
    (rng : Rng) : ((s.lap_time_s d t rng).2).seq = rng.seq := rfl

theorem lap_time_s_nonneg (s : RaceSimulation) (d : Driver) (t : TireState)
    (rng : Rng) (h0 : 0 ≤ rng.seq rng.idx)
    (hbase : 0 ≤ s.base_pace_s)
    (hdelta : 0 ≤ s.config.tire_compound_delta_pct_per_step)
    (hdom : 1.3 + s.base_pace_s * s.config.tire_compound_delta_pct_per_step
      ≤ s.base_pace_s)
    (hskill : d.skill ≤ 100) (hcar : d.car_score ≤ 100) :
    0 ≤ (s.lap_time_s d t rng).1 := by
  have hpen := penalty_s_nonneg t
  have hfst : (s.lap_time_s d t rng).1
      = s.base_pace_s - (d.skill : ℚ) * 0.007 - (d.car_score : ℚ) * 0.003
        + (-0.3 + (0.3 - -0.3) * rng.seq rng.idx)
        + (t.penalty_s + s.base_pace_s * s.config.tire_compound_delta_pct_per_step
            * ((if t.tire_type = TireType.SOFT then -1
                else if t.tire_type = TireType.HARD then 1 else 0 : ℤ) : ℚ))
        + (if s.raining = true ∧ t.tire_type ≠ TireType.WET then 8
           else if ¬s.raining = true ∧ t.tire_type = TireType.WET then 5
           else (0 : ℚ)) := rfl
  rw [hfst]
  have hsq : (d.skill : ℚ) ≤ 100 := by exact_mod_cast hskill
  have hcq : (d.car_score : ℚ) ≤ 100 := by exact_mod_cast hcar
  have hprod : 0 ≤ s.base_pace_s * s.config.tire_compound_delta_pct_per_step :=
    mul_nonneg hbase hdelta
  have hcomp : -(s.base_pace_s * s.config.tire_compound_delta_pct_per_step)
      ≤ s.base_pace_s * s.config.tire_compound_delta_pct_per_step
        * ((if t.tire_type = TireType.SOFT then -1
            else if t.tire_type = TireType.HARD then 1 else 0 : ℤ) : ℚ) := by
    split
    · push_cast; linarith
    · split
      · push_cast; linarith
      · push_cast; linarith
  have hwet : (0 : ℚ) ≤ (if s.raining = true ∧ t.tire_type ≠ TireType.WET then 8
      else if ¬s.raining = true ∧ t.tire_type = TireType.WET then 5
      else (0 : ℚ)) := by
    split
    · norm_num
    · split
      · norm_num
      · norm_num
  nlinarith [mul_nonneg (show (0 : ℚ) ≤ 0.6 by norm_num) h0]

theorem get?_set_ne {α : Type} (l : List α) (i j : ℕ) (a : α) (h : j ≠ i) :
    (l.set i a).get? j = l.get? j := by
  rw [List.get?_eq_getElem?, List.get?_eq_getElem?,
    List.getElem?_set_ne (fun hh => h hh.symm)]

theorem yellowMultiplier_nonneg (s0 : RaceSimulation) (n : String)
    (heff : EffectsOK s0) : 0 ≤ s0.yellowMultiplier n := by
  unfold RaceSimulation.yellowMultiplier
  rcases h : dictGet s0.driver_effects n with _ | e
  · exact heff.1
  · exact heff.2 _ (dictGet_mem h)

theorem stageLap_rel (s0 : RaceSimulation) (ya : Bool) (i : ℕ) (m : Mut)
    (yt : Bool) : MutStepAt s0 i m (stageLap s0 ya i m yt).1 := by
  rcases hd : m.drivers.get? i with _ | d
  · unfold stageLap
    rw [hd]
    exact mutStepAt_refl s0 i m
  · obtain ⟨fname, fskill, fcar, fstatus, ftotal, flap⟩ := ensure_tires_frame d
    have hmono : ∀ (hσ : ValidSeq m.rng.seq) (hcfg : LapCfgOK s0)
        (hsk : SkillsOK m.drivers) (heff : EffectsOK s0),
        0 ≤ (if ya = true
          then ((s0.withMut m).lap_time_s
              { (d.ensure_tires).2 with tires := some (((d.ensure_tires).1).apply_wear
                  (wear_per_lap ((d.ensure_tires).2).skill ((d.ensure_tires).1).tire_type)) }
              (((d.ensure_tires).1).apply_wear
                  (wear_per_lap ((d.ensure_tires).2).skill ((d.ensure_tires).1).tire_type))
              m.rng).1
            * s0.yellowMultiplier ((d.ensure_tires).2).name
          else ((s0.withMut m).lap_time_s
              { (d.ensure_tires).2 with tires := some (((d.ensure_tires).1).apply_wear
                  (wear_per_lap ((d.ensure_tires).2).skill ((d.ensure_tires).1).tire_type)) }
              (((d.ensure_tires).1).apply_wear
                  (wear_per_lap ((d.ensure_tires).2).skill ((d.ensure_tires).1).tire_type))
              m.rng).1) := by
      intro hσ hcfg hsk heff
      have hdm : d ∈ m.drivers := List.mem_iff_get?.mpr ⟨i, hd⟩
      obtain ⟨hsk1, hsk2⟩ := hsk d hdm
      have hlt : 0 ≤ ((s0.withMut m).lap_time_s
          { (d.ensure_tires).2 with tires := some (((d.ensure_tires).1).apply_wear
              (wear_per_lap ((d.ensure_tires).2).skill ((d.ensure_tires).1).tire_type)) }
          (((d.ensure_tires).1).apply_wear
              (wear_per_lap ((d.ensure_tires).2).skill ((d.ensure_tires).1).tire_type))
          m.rng).1 := by
        apply lap_time_s_nonneg
        · exact (hσ m.rng.idx).1
        · exact hcfg.2.1
        · exact hcfg.2.2.1
        · exact hcfg.2.2.2
        · show ((d.ensure_tires).2).skill ≤ 100
          rw [fskill]; exact hsk1
        · show ((d.ensure_tires).2).car_score ≤ 100
          rw [fcar]; exact hsk2
      split
      · exact mul_nonneg hlt (yellowMultiplier_nonneg s0 _ heff)
      · exact hlt
    unfold stageLap
    rw [hd]
    dsimp only
    split
    · refine ⟨rfl, by simp [Mut.setD, Mut.addEvent], ?_, ?_⟩
      · intro j hj
        exact get?_set_ne _ _ _ _ hj
      · intro d0 hd0
        rw [hd] at hd0
        obtain rfl := Option.some.inj hd0
        refine ⟨_, get?_set_self_of_get? hd _, fname, fskill, fcar, ?_, ?_⟩
        · intro hcon
          exact absurd hcon (by simp)
        · intro hσ hcfg hsk heff
          show d.total_time_s ≤ ((d.ensure_tires).2).total_time_s + _
          rw [ftotal]
          exact le_add_of_nonneg_right (hmono hσ hcfg hsk heff)
    · refine ⟨rfl, by simp [Mut.setD], ?_, ?_⟩
      · intro j hj
        exact get?_set_ne _ _ _ _ hj
      · intro d0 hd0
        rw [hd] at hd0
        obtain rfl := Option.some.inj hd0
        refine ⟨_, get?_set_self_of_get? hd _, fname, fskill, fcar, ?_, ?_⟩
        · intro hcon
          have hcon' : ((d.ensure_tires).2).status = DriverStatus.RUNNING := hcon
          rw [fstatus] at hcon'
          exact hcon'
        · intro hσ hcfg hsk heff
          show d.total_time_s ≤ ((d.ensure_tires).2).total_time_s + _
          rw [ftotal]
          exact le_add_of_nonneg_right (hmono hσ hcfg hsk heff)

theorem mutStepAt_rng (s0 : RaceSimulation) (i : ℕ) (m : Mut) (rng' : Rng)
    (hseq : rng'.seq = m.rng.seq) : MutStepAt s0 i m { m with rng := rng' } := by
  refine ⟨hseq, rfl, fun j _ => rfl, fun d hd => ⟨d, hd, rfl, rfl, rfl,
    fun h => h, fun _ _ _ _ => le_refl _⟩⟩

theorem stagePit_rel (s0 : RaceSimulation) (ya : Bool) (i : ℕ) (m : Mut)
    (yt : Bool) : MutStepAt s0 i m (stagePit s0 ya i m yt).1 := by
  rcases hd : m.drivers.get? i with _ | d
  · unfold stagePit
    rw [hd]
    exact mutStepAt_refl s0 i m
  · unfold stagePit
    rw [hd]
    dsimp only
    split
    · refine mutStepAt_trans ?_ (stageLap_rel s0 ya i _ yt)
      refine ⟨rfl, by simp [Mut.setD, Mut.addEvent], ?_, ?_⟩
      · intro j hj
        exact get?_set_ne _ _ _ _ hj
      · intro d0 hd0
        rw [hd] at hd0
        obtain rfl := Option.some.inj hd0
        refine ⟨_, get?_set_self_of_get? hd _, rfl, rfl, rfl, fun h => h, ?_⟩
        intro hσ hcfg _ _
        have hx := (hσ m.rng.idx).1
        have hext : (0 : ℚ) ≤ (m.rng.uniform 0 2).1 := by
          show (0 : ℚ) ≤ 0 + (2 - 0) * m.rng.seq m.rng.idx
          nlinarith
        show d.total_time_s
          ≤ d.total_time_s + (s0.avg_pit_stop_s + (m.rng.uniform 0 2).1)
        have := hcfg.1
        linarith
    · exact stageLap_rel s0 ya i m yt

theorem stageDnf_rel (s0 : RaceSimulation) (ya : Bool) (i : ℕ) (m : Mut)
    (yt : Bool) : MutStepAt s0 i m (stageDnf s0 ya i m yt).1 := by
  rcases hd : m.drivers.get? i with _ | d
  · unfold stageDnf
    rw [hd]
    exact mutStepAt_refl s0 i m
  · unfold stageDnf
    rw [hd]
    dsimp only
    split
    · refine ⟨rfl, by simp [Mut.setD, Mut.addEvent], ?_, ?_⟩
      · intro j hj
        exact get?_set_ne _ _ _ _ hj
      · intro d0 hd0
        rw [hd] at hd0
        obtain rfl := Option.some.inj hd0
        refine ⟨_, get?_set_self_of_get? hd _, rfl, rfl, rfl, ?_, ?_⟩
        · intro hcon
          exact absurd hcon (by simp)
        · intro _ _ _ _
          exact le_refl _
    · exact mutStepAt_trans
        (mutStepAt_rng s0 i m ((m.rng.next).2) rfl)
        (stagePit_rel s0 ya i _ yt)

theorem stageIncident_rel (s0 : RaceSimulation) (ya : Bool) (i : ℕ) (m : Mut)
    (yt : Bool) : MutStepAt s0 i m (stageIncident s0 ya i m yt).1 := by
  rcases hd : m.drivers.get? i with _ | d
  · unfold stageIncident
    rw [hd]
    exact mutStepAt_refl s0 i m
  · unfold stageIncident
    rw [hd]
    dsimp only
    split
    · refine mutStepAt_trans ?_ (stageDnf_rel s0 ya i _ yt)
      refine ⟨rfl, by simp [Mut.setD, Mut.addEvent], ?_, ?_⟩
      · intro j hj
        exact get?_set_ne _ _ _ _ hj
      · intro d0 hd0
        rw [hd] at hd0
        obtain rfl := Option.some.inj hd0
        refine ⟨_, get?_set_self_of_get? hd _, rfl, rfl, rfl, fun h => h, ?_⟩
        intro hσ _ _ _
        have hx := (hσ (m.rng.idx + 1)).1
        have hloss : (0 : ℚ)
            ≤ (({ m with rng := (m.rng.next).2 } : Mut).rng.uniform 0.4 2.2).1 := by
          show (0 : ℚ) ≤ 0.4 + (2.2 - 0.4) * m.rng.seq (m.rng.idx + 1)
          nlinarith
        show d.total_time_s ≤ d.total_time_s
          + (({ m with rng := (m.rng.next).2 } : Mut).rng.uniform 0.4 2.2).1
        linarith
    · exact mutStepAt_trans
        (mutStepAt_rng s0 i m ((m.rng.next).2) rfl)
        (stageDnf_rel s0 ya i _ yt)

theorem stageCollision_rel (s0 : RaceSimulation) (ya : Bool) (i : ℕ) (m : Mut)
    (yt : Bool) : MutStepAt s0 i m (stageCollision s0 ya i m yt).1 := by
  rcases hd : m.drivers.get? i with _ | d
  · unfold stageCollision
    rw [hd]
    exact mutStepAt_refl s0 i m
  · unfold stageCollision
    rw [hd]
    dsimp only
    split
    · split
      · refine ⟨rfl, by simp [Mut.setD, Mut.addEvent], ?_, ?_⟩
        · intro j hj
          exact get?_set_ne _ _ _ _ hj
        · intro d0 hd0
          rw [hd] at hd0
          obtain rfl := Option.some.inj hd0
          refine ⟨_, get?_set_self_of_get? hd _, rfl, rfl, rfl, ?_, ?_⟩
          · intro hcon
            exact absurd hcon (by simp)
          · intro _ _ _ _
            exact le_refl _
      · refine mutStepAt_trans ?_ (stageIncident_rel s0 ya i _ yt)
        refine ⟨rfl, by simp [Mut.setD, Mut.addEvent], ?_, ?_⟩
        · intro j hj
          exact get?_set_ne _ _ _ _ hj
        · intro d0 hd0
          rw [hd] at hd0
          obtain rfl := Option.some.inj hd0
          refine ⟨_, get?_set_self_of_get? hd _, rfl, rfl, rfl, fun h => h, ?_⟩
          intro hσ _ _ _
          have hx := (hσ (m.rng.idx + 2)).1
          have hpen : (0 : ℚ)
              ≤ ((({ m with rng := (m.rng.next).2 } : Mut) : Mut).rng.next.2.uniform 3 10).1 := by
            show (0 : ℚ) ≤ 3 + (10 - 3) * m.rng.seq (m.rng.idx + 2)
            nlinarith
          show d.total_time_s ≤ d.total_time_s
            + ((({ m with rng := (m.rng.next).2 } : Mut) : Mut).rng.next.2.uniform 3 10).1
          linarith
    · exact mutStepAt_trans
        (mutStepAt_rng s0 i m ((m.rng.next).2) rfl)
        (stageIncident_rel s0 ya i _ yt)

theorem processDriver_rel (s0 : RaceSimulation) (ya : Bool) (i : ℕ) (m : Mut)
    (yt : Bool) :
    MutStepAt s0 i m (processDriver s0 ya i m yt).1 ∧
    (∀ d, m.drivers.get? i = some d → d.status ≠ DriverStatus.RUNNING →
      (processDriver s0 ya i m yt).1 = m) := by
  rcases hd : m.drivers.get? i with _ | d
  · unfold processDriver
    rw [hd]
    refine ⟨mutStepAt_refl s0 i m, ?_⟩
    intro d h
    exact fun _ => absurd h (by simp)
  · unfold processDriver
    rw [hd]
    dsimp only
    split
    · refine ⟨mutStepAt_refl s0 i m, fun d0 hd0 _ => rfl⟩
    · rename_i hrun
      have hfrozen : ∀ d0, m.drivers.get? i = some d0 →
          d0.status ≠ DriverStatus.RUNNING → True := fun _ _ _ => trivial
      split
      · refine ⟨?_, ?_⟩
        · refine ⟨rfl, by simp [Mut.setD], ?_, ?_⟩
          · intro j hj
            exact get?_set_ne _ _ _ _ hj
          · intro d0 hd0
            rw [hd] at hd0
            obtain rfl := Option.some.inj hd0
            refine ⟨_, get?_set_self_of_get? hd _, rfl, rfl, rfl, ?_, ?_⟩
            · intro hcon
              exact absurd hcon (by simp)
            · intro _ _ _ _
              exact le_refl _
        · intro d0 hd0 hne
          obtain rfl := Option.some.inj hd0
          exact absurd (not_not.mp hrun) hne
      · constructor
        · refine mutStepAt_trans ?_ (stageCollision_rel s0 ya i _ yt)
          obtain ⟨gname, gskill, gcar, gstatus, gtotal, glap⟩ := ensure_tires_frame d
          refine ⟨rfl, by simp [Mut.setD], ?_, ?_⟩
          · intro j hj
            exact get?_set_ne _ _ _ _ hj
          · intro d0 hd0
            rw [hd] at hd0
            obtain rfl := Option.some.inj hd0
            refine ⟨_, get?_set_self_of_get? hd _, gname, gskill, gcar, ?_, ?_⟩
            · intro hcon
              rw [gstatus] at hcon
              exact hcon
            · intro _ _ _ _
              rw [gtotal]
        · intro d0 hd0 hne
          obtain rfl := Option.some.inj hd0
          exact absurd (not_not.mp hrun) hne

theorem loopRel_refl (s0 : RaceSimulation) (m : Mut) : LoopRel s0 m m := by
  refine ⟨rfl, rfl, fun j d hd => ⟨d, hd, rfl, rfl, rfl, fun h => h,
    fun _ => rfl, fun _ _ _ _ => le_refl _⟩⟩

theorem skillsOK_of_loopRel {s0 : RaceSimulation} {m m' : Mut}
    (hrel : LoopRel s0 m m') (hsk : SkillsOK m.drivers) :
    SkillsOK m'.drivers := by
  obtain ⟨hseq, hlen, hpt⟩ := hrel
  intro d' hd'
  obtain ⟨j, hj⟩ := List.mem_iff_get?.mp hd'
  rcases hmj : m.drivers.get? j with _ | d
  · exfalso
    have h1 : m.drivers.length ≤ j := List.get?_eq_none.mp hmj
    have h2 : ¬ m'.drivers.length ≤ j := by
      intro hle
      rw [List.get?_eq_none.mpr hle] at hj
      exact Option.noConfusion hj
    rw [hlen] at h2
    exact h2 h1
  · obtain ⟨d'', hd'', _, hskill, hcar, _, _, _⟩ := hpt j d hmj
    rw [hj] at hd''
    obtain rfl := Option.some.inj hd''
    have := hsk d (List.mem_iff_get?.mpr ⟨j, hmj⟩)
    rw [hskill, hcar]
    exact this

theorem loopRel_compose {s0 : RaceSimulation} {m0 m : Mut} (ya : Bool)
    (i : ℕ) (yt : Bool) (h : LoopRel s0 m0 m) :
    LoopRel s0 m0 (processDriver s0 ya i m yt).1 := by
  obtain ⟨pA, pB⟩ := processDriver_rel s0 ya i m yt
  obtain ⟨a1, a2, a3, a4⟩ := pA
  obtain ⟨l1, l2, l3⟩ := h
  refine ⟨a1.trans l1, a2.trans l2, ?_⟩
  intro j d hd
  obtain ⟨d1, hd1, n1, s1, c1, r1, f1, t1⟩ := l3 j d hd
  by_cases hij : j = i
  · subst hij
    by_cases hrun : d1.status = DriverStatus.RUNNING
    · obtain ⟨d2, hd2, n2, s2, c2, r2, t2⟩ := a4 d1 hd1
      refine ⟨d2, hd2, n2.trans n1, s2.trans s1, c2.trans c1,
        fun h2 => r1 (r2 h2), ?_, ?_⟩
      · intro hne
        exfalso
        have : d.status = DriverStatus.RUNNING := by
          rw [← f1 hne]
          exact hrun
        exact hne this
      · intro hσ hcfg hsk heff
        have hσ1 : ValidSeq m.rng.seq := by rw [l1]; exact hσ
        have hsk1 : SkillsOK m.drivers := skillsOK_of_loopRel ⟨l1, l2, l3⟩ hsk
        exact le_trans (t1 hσ hcfg hsk heff) (t2 hσ1 hcfg hsk1 heff)
    · rw [pB d1 hd1 hrun]
      exact ⟨d1, hd1, n1, s1, c1, r1, f1, t1⟩
  · rw [a3 j hij]
    exact ⟨d1, hd1, n1, s1, c1, r1, f1, t1⟩

theorem runLapLoop_rel (s : RaceSimulation) (ya : Bool) :
    LoopRel s { drivers := s.drivers, rng := s.rng, events := s.events }
      ((s.runLapLoop ya).1) := by
  unfold RaceSimulation.runLapLoop
  refine foldl_inv
    (fun (p : Mut × Bool) =>
      LoopRel s { drivers := s.drivers, rng := s.rng, events := s.events } p.1)
    _ _ _ (loopRel_refl s _) ?_
  intro b a hb
  exact loopRel_compose ya a b.2 hb

/-! ### enforcement and post-lap frames -/

theorem driversMono_refl (l : List Driver) : DriversMono l l :=
  ⟨rfl, fun _ d hd => ⟨d, hd, rfl, rfl, rfl, rfl, rfl, le_refl _⟩⟩

theorem driversMono_trans {a b c : List Driver} (h1 : DriversMono a b)
    (h2 : DriversMono b c) : DriversMono a c := by
  obtain ⟨l1, p1⟩ := h1
  obtain ⟨l2, p2⟩ := h2
  refine ⟨l2.trans l1, ?_⟩
  intro j d hd
  obtain ⟨d1, hd1, n1, s1, k1, c1, a1, t1⟩ := p1 j d hd
  obtain ⟨d2, hd2, n2, s2, k2, c2, a2, t2⟩ := p2 j d1 hd1
  exact ⟨d2, hd2, n2.trans n1, s2.trans s1, k2.trans k1, c2.trans c1,
    a2.trans a1, t1.trans t2⟩

theorem totalsMono_of_eq {a b : List Driver} (h : b = a) : TotalsMono a b := by
  subst h
  exact ⟨rfl, fun j d d' hd hd' => by
    rw [hd] at hd'
    obtain rfl := Option.some.inj hd'
    exact le_refl _⟩

theorem totalsMono_trans {a b c : List Driver} (h1 : TotalsMono a b)
    (h2 : TotalsMono b c) : TotalsMono a c := by
  obtain ⟨l1, p1⟩ := h1
  obtain ⟨l2, p2⟩ := h2
  refine ⟨l2.trans l1, ?_⟩
  intro j d d' hd hd'
  rcases hb : b.get? j with _ | d1
  · exfalso
    have h1 : b.length ≤ j := List.get?_eq_none.mp hb
    have h2 : ¬ c.length ≤ j := by
      intro hle
      rw [List.get?_eq_none.mpr hle] at hd'
      exact Option.noConfusion hd'
    rw [l2] at h2
    exact h2 h1
  · exact le_trans (p1 j d d1 hd hb) (p2 j d1 d' hb hd')

theorem totalsMono_of_driversMono {a b : List Driver} (h : DriversMono a b) :
    TotalsMono a b := by
  obtain ⟨l, p⟩ := h
  refine ⟨l, ?_⟩
  intro j d d' hd hd'
  obtain ⟨d1, hd1, _, _, _, _, _, t⟩ := p j d hd
  rw [hd'] at hd1
  obtain rfl := Option.some.inj hd1
  exact t

theorem updateDriver_mono_of_find {l : List Driver} {n : String} {d : Driver}
    (hfind : findDriver l n = some d) (t : ℚ) (ht : d.total_time_s ≤ t) :
    DriversMono l
      (updateDriver n (fun e => { e with total_time_s := t }) l) := by
  induction l with
  | nil => simp [findDriver] at hfind
  | cons x xs ih =>
    unfold findDriver at hfind ih
    by_cases hx : x.name = n
    · have hbx : (x.name == n) = true := by simp [hx]
      rw [List.find?_cons, hbx] at hfind
      dsimp only at hfind
      obtain rfl := Option.some.inj hfind
      unfold updateDriver
      rw [if_pos hx]
      refine ⟨by simp, ?_⟩
      intro j e he
      cases j with
      | zero =>
        obtain rfl := Option.some.inj he
        exact ⟨_, rfl, rfl, rfl, rfl, rfl, rfl, ht⟩
      | succ k => exact ⟨e, he, rfl, rfl, rfl, rfl, rfl, le_refl _⟩
    · have hbx : (x.name == n) = false := by simp [hx]
      rw [List.find?_cons, hbx] at hfind
      dsimp only at hfind
      unfold updateDriver
      rw [if_neg hx]
      obtain ⟨hl, hp⟩ := ih hfind
      refine ⟨by simpa using hl, ?_⟩
      intro j e he
      cases j with
      | zero =>
        obtain rfl := Option.some.inj he
        exact ⟨_, rfl, rfl, rfl, rfl, rfl, rfl, le_refl _⟩
      | succ k => exact hp k e he

theorem enforceYellowOrder_mono (gap : ℚ) (ordered : List String)
    (drivers : List Driver) :
    DriversMono drivers (enforceYellowOrder gap ordered drivers) := by
  unfold enforceYellowOrder
  refine foldl_inv
    (fun (p : List Driver × Option ℚ) => DriversMono drivers p.1)
    _ _ _ (driversMono_refl drivers) ?_
  intro b a hb
  unfold enforceStep
  dsimp only
  rcases hf : findDriver b.1 a with _ | d
  · exact hb
  · rcases hp : b.2 with _ | prev
    · exact hb
    · exact driversMono_trans hb
        (updateDriver_mono_of_find hf _ (le_max_left _ _))

theorem emit_overtakes_drivers (s : RaceSimulation) (before after : List String) :
    (s.emit_overtakes before after).drivers = s.drivers := by
  unfold RaceSimulation.emit_overtakes
  refine foldl_inv (fun (s' : RaceSimulation) => s'.drivers = s.drivers) _ _ _ rfl ?_
  intro b a hb
  unfold emitStep
  rcases h : lastIdxOf before a.2 with _ | prev
  · exact hb
  · dsimp only
    by_cases hlt : a.1 < prev
    · rw [if_pos hlt]
      by_cases hg : 1 ≤ prev - a.1
      · rw [if_pos hg]
        exact hb
      · rw [if_neg hg]
        exact hb
    · rw [if_neg hlt]
      exact hb

theorem postGreen_drivers (s : RaceSimulation) :
    (s.postGreen).drivers = s.drivers := by
  unfold RaceSimulation.postGreen
  dsimp only
  split
  · exact emit_overtakes_drivers s _ _
  · rfl

theorem postYellow_drivers (s : RaceSimulation) (ob : List String) :
    (s.postYellow ob).drivers
      = enforceYellowOrder s.config.yellow_min_gap_s
          (ob.filter (fun n =>
            match findDriver s.drivers n with
            | some d => d.status == DriverStatus.RUNNING
            | none => false)) s.drivers := rfl

theorem set_flag_drivers (s : RaceSimulation) (f : FlagState) :
    (s.set_flag f).drivers = s.drivers := by
  unfold RaceSimulation.set_flag
  split
  · rfl
  · rfl

theorem log_drivers (s : RaceSimulation) (k m : String) :
    (s.log k m).drivers = s.drivers := rfl

theorem armYellow_drivers (s : RaceSimulation) :
    (s.armYellow).drivers = s.drivers := by
  unfold RaceSimulation.armYellow
  dsimp only
  split
  all_goals split
  all_goals simp only [log_drivers, set_flag_drivers]

theorem postLapWrap_drivers (s : RaceSimulation) (b : Bool) :
    (s.postLapWrap b).drivers = s.drivers := by
  unfold RaceSimulation.postLapWrap
  dsimp only
  split
  · split
    · exact armYellow_drivers s
    · rfl
  · split
    · exact (armYellow_drivers _).trans rfl
    · rfl

theorem set_flag_effectsOK {s : RaceSimulation} (f : FlagState)
    (heff : EffectsOK s) : EffectsOK (s.set_flag f) := by
  unfold RaceSimulation.set_flag
  split
  · exact heff
  · constructor
    · exact heff.1
    · intro p hp
      obtain ⟨q, hq, rfl⟩ := List.mem_map.mp hp
      unfold DriverFlagObserver.on_flag_change
      split
      · exact heff.1
      · norm_num

theorem preLapFlag_frame (s : RaceSimulation) (ya : Bool) :
    (s.preLapFlag ya).drivers = s.drivers ∧
    (s.preLapFlag ya).rng = s.rng ∧
    (s.preLapFlag ya).started = s.started ∧
    (s.preLapFlag ya).finished = s.finished ∧
    (s.preLapFlag ya).base_pace_s = s.base_pace_s ∧
    (s.preLapFlag ya).avg_pit_stop_s = s.avg_pit_stop_s ∧
    (s.preLapFlag ya).config = s.config ∧
    (s.preLapFlag ya).track_laps = s.track_laps ∧
    (s.preLapFlag ya).raining = s.raining ∧
    (s.preLapFlag ya).events = s.events ∧
    (s.preLapFlag ya).red_flag_active = s.red_flag_active ∧
    (s.preLapFlag ya).last_positions = s.last_positions ∧
    (s.preLapFlag ya).planned_pit_lap = s.planned_pit_lap := by
  unfold RaceSimulation.preLapFlag
  dsimp only
  split
  · obtain ⟨f1, f2, f3, f4, f5, f6, f7, f8, f9, f10, f11, f12, f13, f14, f15,
      f16, f17, f18⟩ := set_flag_frame s FlagState.YELLOW
    exact ⟨f1, f2, f4, f5, f13, f14, f8, f10, f12, f3, f6, f11, f15⟩
  · obtain ⟨f1, f2, f3, f4, f5, f6, f7, f8, f9, f10, f11, f12, f13, f14, f15,
      f16, f17, f18⟩ := set_flag_frame s FlagState.GREEN
    exact ⟨f1, f2, f4, f5, f13, f14, f8, f10, f12, f3, f6, f11, f15⟩

theorem preLapFlag_effectsOK {s : RaceSimulation} (ya : Bool)
    (heff : EffectsOK s) : EffectsOK (s.preLapFlag ya) := by
  unfold RaceSimulation.preLapFlag
  dsimp only
  split
  · exact set_flag_effectsOK FlagState.YELLOW heff
  · exact set_flag_effectsOK FlagState.GREEN heff

theorem totalsMono_of_loopRel {s0 : RaceSimulation} {m m' : Mut}
    (h : LoopRel s0 m m') (hσ : ValidSeq m.rng.seq) (hcfg : LapCfgOK s0)
    (hsk : SkillsOK m.drivers) (heff : EffectsOK s0) :
    TotalsMono m.drivers m'.drivers := by
  obtain ⟨-, hlen, hpt⟩ := h
  refine ⟨hlen, ?_⟩
  intro j d d' hd hd'
  obtain ⟨d1, hd1, -, -, -, -, -, ht⟩ := hpt j d hd
  rw [hd'] at hd1
  obtain rfl := Option.some.inj hd1
  exact ht hσ hcfg hsk heff

theorem lapCfgOK_of_fields {s t : RaceSimulation}
    (hb : t.base_pace_s = s.base_pace_s)
    (ha : t.avg_pit_stop_s = s.avg_pit_stop_s)
    (hc : t.config = s.config) (h : LapCfgOK s) : LapCfgOK t := by
  unfold LapCfgOK at h ⊢
  rw [hb, ha, hc]
  exact h

theorem effectsOK_of_fields {s t : RaceSimulation}
    (hc : t.config = s.config) (he : t.driver_effects = s.driver_effects)
    (h : EffectsOK s) : EffectsOK t := by
  unfold EffectsOK at h ⊢
  rw [hc, he]
  exact h

theorem redFlagEntry_mono (s : RaceSimulation) (hσ : ValidSeq s.rng.seq)
    (hrf0 : 0 ≤ s.config.red_flag_duration_min_minutes)
    (hrf : s.config.red_flag_duration_min_minutes
      ≤ s.config.red_flag_duration_max_minutes) :
    TotalsMono s.drivers (s.redFlagEntry).drivers := by
  have hc : 0 ≤ redStopSeconds s := by
    unfold redStopSeconds
    have h1 := (hσ s.rng.idx).1
    have h2 : (0 : ℚ) ≤ (s.config.red_flag_duration_max_minutes
        - s.config.red_flag_duration_min_minutes) * s.rng.seq s.rng.idx :=
      mul_nonneg (by linarith) h1
    nlinarith
  rw [(redFlagEntry_spec s).1]
  refine ⟨List.length_map _ _, ?_⟩
  intro j d d' hd hd'
  rw [List.get?_map, hd] at hd'
  simp only [Option.map_some'] at hd'
  obtain rfl := Option.some.inj hd'
  split
  · show d.total_time_s ≤ d.total_time_s + redStopSeconds s
    linarith
  · exact le_refl _

theorem lapBody_mono (s : RaceSimulation) (hσ : ValidSeq s.rng.seq)
    (hcfg : LapCfgOK s) (heff : EffectsOK s) (hsk : SkillsOK s.drivers) :
    TotalsMono s.drivers (s.lapBody).drivers := by
  obtain ⟨fd, fr, -, -, fb, fa, fc, -, -, -, -, -, -⟩ :=
    preLapFlag_frame s s.is_yellow_active
  have hrel := runLapLoop_rel (s.preLapFlag s.is_yellow_active) s.is_yellow_active
  have hm1 : TotalsMono (s.preLapFlag s.is_yellow_active).drivers
      (((s.preLapFlag s.is_yellow_active).runLapLoop s.is_yellow_active).1).drivers := by
    refine totalsMono_of_loopRel hrel ?_ ?_ ?_ ?_
    · show ValidSeq (s.preLapFlag s.is_yellow_active).rng.seq
      rw [fr]
      exact hσ
    · exact lapCfgOK_of_fields fb fa fc hcfg
    · show SkillsOK (s.preLapFlag s.is_yellow_active).drivers
      rw [fd]
      exact hsk
    · exact preLapFlag_effectsOK s.is_yellow_active heff
  have h2 : TotalsMono s.drivers
      (((s.preLapFlag s.is_yellow_active).runLapLoop s.is_yellow_active).1).drivers := by
    rw [fd] at hm1
    exact hm1
  unfold RaceSimulation.lapBody
  dsimp only
  rw [postLapWrap_drivers]
  split <;> split
  · rw [postYellow_drivers]
    exact totalsMono_trans h2
      (totalsMono_of_driversMono (enforceYellowOrder_mono _ _ _))
  · rw [postGreen_drivers]
    exact h2
  · rw [postYellow_drivers]
    exact totalsMono_trans h2
      (totalsMono_of_driversMono (enforceYellowOrder_mono _ _ _))
  · rw [postGreen_drivers]
    exact h2

/-- C1 (amended): across the operations of a started session that `step_lap`
performs — a normal lap, the FIA stop, red-flag entry — every competitor's
`total_time_s` is monotonically non-decreasing, position by position, on a
valid draw stream and a sane configuration.  The claim's further assertion
that *clearing* a red flag also never decreases a total is refuted by the
separate counterexample: the restart re-derivation can shrink a
trailing competitor's total. -/
theorem c1_step_lap_monotone (s s' : RaceSimulation)
    (hσ : ValidSeq s.rng.seq) (hcfg : LapCfgOK s) (heff : EffectsOK s)
    (hsk : SkillsOK s.drivers)
    (hrf0 : 0 ≤ s.config.red_flag_duration_min_minutes)
    (hrf : s.config.red_flag_duration_min_minutes
      ≤ s.config.red_flag_duration_max_minutes)
    (h : s.step_lap = Except.ok s') :
    TotalsMono s.drivers s'.drivers := by
  unfold RaceSimulation.step_lap at h
  split at h
  · exact Except.noConfusion h
  split at h
  · obtain rfl := Except.ok.inj h
    exact totalsMono_of_eq rfl
  split at h
  · obtain rfl := Except.ok.inj h
    exact totalsMono_of_eq rfl
  split at h
  · obtain rfl := Except.ok.inj h
    exact totalsMono_of_eq rfl
  split at h
  · dsimp only at h
    split at h
    · obtain rfl := Except.ok.inj h
      exact redFlagEntry_mono { s with rng := (s.rng.next).2 } hσ hrf0 hrf
    · obtain rfl := Except.ok.inj h
      exact lapBody_mono { s with rng := (s.rng.next).2 } hσ
        (lapCfgOK_of_fields rfl rfl rfl hcfg)
        (effectsOK_of_fields rfl rfl heff) hsk
  · obtain rfl := Except.ok.inj h
    exact lapBody_mono s hσ hcfg heff hsk

theorem c1_witness :
    ∃ s' : RaceSimulation, fixSim.step_lap = Except.ok s' ∧
      TotalsMono fixSim.drivers s'.drivers := by
  obtain ⟨s', hs'⟩ := @step_lap_ok_of_started fixSim rfl
  exact ⟨s', hs', c1_step_lap_monotone fixSim s'
    (fun n => ⟨by show (0 : ℚ) ≤ 1 / 2; norm_num,
      by show (1 / 2 : ℚ) < 1; norm_num⟩)
    (by decide) (by decide) (by decide) (by decide) (by decide) hs'⟩

/-- C9 counterexample: on a 10-lap dry race the drawn plan can be lap 3,
which is *not* within the middle third of the race (3 < 10/3). -/
theorem c9_counterexample :
    fixPrepSim.track_laps = 10 ∧
    fixPrepSim.prepare.planned_pit_lap_for "A" = some 3 ∧
    ¬ ((fixPrepSim.track_laps : ℤ) ≤ 3 * 3) := by decide

/-! ### the red-flag restart: clear_red_flag -/

theorem shiftTotal_name (c : ℚ) (d : Driver) :
    (shiftTotal c d).name = d.name := rfl

theorem findDriver_of_mem_nodup {l : List Driver} {d : Driver}
    (hnd : (l.map (fun (x : Driver) => x.name)).Nodup) (hd : d ∈ l) :
    findDriver l d.name = some d := by
  induction l with
  | nil => cases hd
  | cons x xs ih =>
    simp only [List.map_cons, List.nodup_cons] at hnd
    rcases List.mem_cons.mp hd with rfl | hmem
    · unfold findDriver
      rw [List.find?_cons, show (d.name == d.name) = true by simp]
    · have hx : (x.name == d.name) = false := by
        refine beq_eq_false_iff_ne.mpr ?_
        intro he
        exact hnd.1 (he ▸ List.mem_map_of_mem _ hmem)
      unfold findDriver
      rw [List.find?_cons, hx]
      exact ih hnd.2 hmem

theorem findDriver_map {g : Driver → Driver}
    (hg : ∀ d, (g d).name = d.name) (l : List Driver) (n : String) :
    findDriver (l.map g) n = (findDriver l n).map g := by
  induction l with
  | nil => rfl
  | cons x xs ih =>
    unfold findDriver at ih ⊢
    simp only [List.map_cons, List.find?_cons, hg]
    rcases h : (x.name == n) with _ | _
    · exact ih
    · rfl

theorem findIdx_of_nodup_aux {l : List String} (hnd : l.Nodup) :
    ∀ k i n, l.get? i = some n →
      l.findIdx? (fun m => m == n) k = some (k + i) := by
  induction l with
  | nil =>
    intro k i n h
    simp at h
  | cons x xs ih =>
    simp only [List.nodup_cons] at hnd
    intro k i n h
    cases i with
    | zero =>
      obtain rfl := Option.some.inj h
      rw [List.findIdx?_cons, if_pos (by simp)]
      rw [Nat.add_zero]
    | succ j =>
      have hmem : n ∈ xs := List.get?_mem h
      have hx : (x == n) = false := by
        refine beq_eq_false_iff_ne.mpr ?_
        intro he
        exact hnd.1 (he ▸ hmem)
      rw [List.findIdx?_cons, if_neg (by simp [hx]), ih hnd.2 (k + 1) j n h]
      congr 1
      omega

theorem findIdx_of_nodup {l : List String} {i : ℕ} {n : String}
    (hnd : l.Nodup) (h : l.get? i = some n) :
    l.findIdx? (fun m => m == n) = some i := by
  have := findIdx_of_nodup_aux hnd 0 i n h
  simpa using this

theorem eq_of_perm_sorted_strict (l₁ : List Driver) :
    ∀ l₂ : List Driver, l₁.Perm l₂ → l₁.Pairwise byTotalTime →
      l₂.Pairwise (fun a b => a.total_time_s < b.total_time_s) → l₁ = l₂ := by
  induction l₁ with
  | nil =>
    intro l₂ hp _ _
    exact hp.nil_eq
  | cons a t₁ ih =>
    intro l₂ hp h₁ h₂
    cases l₂ with
    | nil =>
      rw [List.perm_nil] at hp
      exact absurd hp (by simp)
    | cons b t₂ =>
      have hab : a = b := by
        have hain : a ∈ b :: t₂ := hp.mem_iff.mp (List.mem_cons_self a t₁)
        rcases List.mem_cons.mp hain with h | h
        · exact h
        · have hba : b.total_time_s < a.total_time_s :=
            (List.pairwise_cons.mp h₂).1 a h
          have hbin : b ∈ a :: t₁ := hp.symm.mem_iff.mp (List.mem_cons_self b t₂)
          rcases List.mem_cons.mp hbin with h' | h'
          · exact absurd (h' ▸ hba) (lt_irrefl _)
          · have hle : a.total_time_s ≤ b.total_time_s :=
              (List.pairwise_cons.mp h₁).1 b h'
            exact absurd (lt_of_le_of_lt hle hba) (lt_irrefl _)
      subst hab
      have ht : t₁ = t₂ := ih t₂ hp.cons_inv
        (List.pairwise_cons.mp h₁).2 (List.pairwise_cons.mp h₂).2
      rw [ht]

theorem filter_running_map {g : Driver → Driver}
    (hg : ∀ d, (g d).status = d.status) (l : List Driver) :
    ((l.map g).filter (fun d => d.status == DriverStatus.RUNNING))
      = (l.filter (fun d => d.status == DriverStatus.RUNNING)).map g := by
  induction l with
  | nil => rfl
  | cons d ds ih =>
    simp only [List.map_cons, List.filter_cons, hg]
    rcases h : (d.status == DriverStatus.RUNNING) with _ | _
    · simpa using ih
    · simpa using ih

theorem sorted_running_congr {u t : RaceSimulation}
    (h : u.drivers = t.drivers) : u.sorted_running = t.sorted_running := by
  unfold RaceSimulation.sorted_running
  rw [h]

theorem sorted_running_def (s : RaceSimulation) :
    s.sorted_running = (s.drivers.filter
      (fun d => d.status == DriverStatus.RUNNING)).insertionSort byTotalTime :=
  rfl

theorem mem_drivers_of_mem_sorted_running {u : RaceSimulation} {d : Driver}
    (hd : d ∈ u.sorted_running) :
    d ∈ u.drivers ∧ (d.status == DriverStatus.RUNNING) = true := by
  unfold RaceSimulation.sorted_running at hd
  have hdF := (List.perm_insertionSort byTotalTime _).mem_iff.mp hd
  exact List.mem_filter.mp hdF

theorem clearRestore_eq (u : RaceSimulation)
    (hmem : u.restart_memento
      = some (u.sorted_running.map (fun (d : Driver) => d.name)))
    (hnodup : (u.drivers.map (fun (d : Driver) => d.name)).Nodup)
    (hrun : u.sorted_running ≠ []) :
    u.clearRestore = { u with
      drivers := u.drivers.map (restartAssign
        (u.sorted_running.map (fun (x : Driver) => x.name))
        (headTotal u.sorted_running) u.config.restart_gap_s)
      last_positions := u.sorted_running.map (fun (d : Driver) => d.name)
      restart_memento := none } := by
  have hordfilter :
      ((u.sorted_running.map (fun (d : Driver) => d.name)).filter
        (fun n => match findDriver u.drivers n with
          | some d => d.status == DriverStatus.RUNNING
          | none => false))
      = u.sorted_running.map (fun (d : Driver) => d.name) := by
    refine List.filter_eq_self.mpr ?_
    intro n hn
    obtain ⟨d, hd, rfl⟩ := List.mem_map.mp hn
    obtain ⟨hdu, hds⟩ := mem_drivers_of_mem_sorted_running hd
    show (match findDriver u.drivers d.name with
      | some d => d.status == DriverStatus.RUNNING
      | none => false) = true
    rw [findDriver_of_mem_nodup hnodup hdu]
    exact hds
  unfold RaceSimulation.clearRestore
  rw [hmem]
  split
  next heq => exact absurd heq (by simp)
  next order heq =>
    obtain rfl := Option.some.inj heq
    rw [hordfilter]
    dsimp only
    rcases hR : u.sorted_running with _ | ⟨d0, R'⟩
    · exact absurd hR hrun
    have hd0u : d0 ∈ u.drivers :=
      (mem_drivers_of_mem_sorted_running
        (show d0 ∈ u.sorted_running by rw [hR]; exact List.mem_cons_self d0 R')).1
    simp only [List.map_cons]
    rw [findDriver_of_mem_nodup hnodup hd0u]
    rfl

theorem restartAssign_name (order : List String) (lt gap : ℚ) (d : Driver) :
    (restartAssign order lt gap d).name = d.name := by
  unfold restartAssign
  split
  · rfl
  · rfl

theorem restartAssign_status (order : List String) (lt gap : ℚ) (d : Driver) :
    (restartAssign order lt gap d).status = d.status := by
  unfold restartAssign
  split
  · rfl
  · rfl

theorem restartAssign_total {order : List String} {i : ℕ} {n : String}
    (hnd : order.Nodup) (h : order.get? i = some n) (lt gap : ℚ) (d : Driver)
    (hdn : d.name = n) :
    restartAssign order lt gap d
      = { d with total_time_s := lt + (i : ℚ) * gap } := by
  unfold restartAssign
  rw [hdn, findIdx_of_nodup hnd h]

theorem pairwise_lt_of_get_total :
    ∀ (L : List Driver) (f : ℕ → ℚ),
      (∀ i d, L.get? i = some d → d.total_time_s = f i) →
      (∀ i j, i < j → f i < f j) →
      L.Pairwise (fun a b => a.total_time_s < b.total_time_s) := by
  intro L
  induction L with
  | nil =>
    intro f _ _
    exact List.Pairwise.nil
  | cons a t ih =>
    intro f hf hmono
    refine List.pairwise_cons.mpr ⟨?_, ih (fun k => f (k + 1))
      (fun i d hd => hf (i + 1) d hd)
      (fun i j hij => hmono (i + 1) (j + 1) (by omega))⟩
    intro b hb
    obtain ⟨k, hk⟩ := List.mem_iff_get?.mp hb
    have ha := hf 0 a rfl
    have hbk := hf (k + 1) b hk
    rw [ha, hbk]
    exact hmono 0 (k + 1) (by omega)

theorem chain_gap_of_get_total (gap : ℚ) :
    ∀ (L : List Driver) (f : ℕ → ℚ),
      (∀ i d, L.get? i = some d → d.total_time_s = f i) →
      (∀ i, f i + gap ≤ f (i + 1)) →
      L.Chain' (fun a b => a.total_time_s + gap ≤ b.total_time_s) := by
  intro L
  induction L with
  | nil =>
    intro f _ _
    exact List.chain'_nil
  | cons a t ih =>
    intro f hf hstep
    cases t with
    | nil => exact List.chain'_singleton a
    | cons b t' =>
      refine List.chain'_cons.mpr ⟨?_, ?_⟩
      · have ha := hf 0 a rfl
        have hb := hf 1 b rfl
        rw [ha, hb]
        exact hstep 0
      · exact ih (fun k => f (k + 1)) (fun i d hd => hf (i + 1) d hd)
          (fun i => hstep (i + 1))

theorem clearRestore_restores (u : RaceSimulation)
    (hmem : u.restart_memento
      = some (u.sorted_running.map (fun (d : Driver) => d.name)))
    (hnodup : (u.drivers.map (fun (d : Driver) => d.name)).Nodup)
    (hgap : 0 < u.config.restart_gap_s)
    (hrun : u.sorted_running ≠ []) :
    u.clearRestore.restart_memento = none ∧
    u.clearRestore.sorted_running.map (fun (d : Driver) => d.name)
      = u.sorted_running.map (fun (d : Driver) => d.name) ∧
    (∀ i d, u.sorted_running.get? i = some d →
      ∃ d', findDriver u.clearRestore.drivers d.name = some d' ∧
        d'.total_time_s
          = headTotal u.sorted_running + (i : ℚ) * u.config.restart_gap_s) ∧
    List.Chain' (fun a b =>
      a.total_time_s + u.config.restart_gap_s ≤ b.total_time_s)
      u.clearRestore.sorted_running := by
  have hEq := clearRestore_eq u hmem hnodup hrun
  have hndO : (u.sorted_running.map (fun (d : Driver) => d.name)).Nodup := by
    have hFnd : ((u.drivers.filter
        (fun d => d.status == DriverStatus.RUNNING)).map
          (fun (d : Driver) => d.name)).Nodup :=
      List.Nodup.sublist
        (List.Sublist.map _ (List.filter_sublist u.drivers)) hnodup
    have hperm : ((u.drivers.filter
        (fun d => d.status == DriverStatus.RUNNING)).map
          (fun (d : Driver) => d.name)).Perm
        (u.sorted_running.map (fun (d : Driver) => d.name)) :=
      List.Perm.map _ (List.perm_insertionSort byTotalTime _).symm
    exact hperm.nodup hFnd
  have hstar : ∀ i d, u.sorted_running.get? i = some d →
      restartAssign (u.sorted_running.map (fun (x : Driver) => x.name))
        (headTotal u.sorted_running) u.config.restart_gap_s d
      = { d with total_time_s :=
          headTotal u.sorted_running + (i : ℚ) * u.config.restart_gap_s } := by
    intro i d hd
    have hOi : (u.sorted_running.map (fun (x : Driver) => x.name)).get? i
        = some d.name := by
      rw [List.get?_map, hd]
      rfl
    exact restartAssign_total hndO hOi _ _ d rfl
  have hdrv : u.clearRestore.drivers
      = u.drivers.map (restartAssign
          (u.sorted_running.map (fun (x : Driver) => x.name))
          (headTotal u.sorted_running) u.config.restart_gap_s) := by
    rw [hEq]
  have hLget : ∀ i d', (u.sorted_running.map (restartAssign
      (u.sorted_running.map (fun (x : Driver) => x.name))
      (headTotal u.sorted_running) u.config.restart_gap_s)).get? i = some d' →
      d'.total_time_s
        = headTotal u.sorted_running + (i : ℚ) * u.config.restart_gap_s := by
    intro i d' hd'
    rw [List.get?_map] at hd'
    rcases hd : u.sorted_running.get? i with _ | d
    · rw [hd] at hd'
      exact Option.noConfusion hd'
    · rw [hd] at hd'
      simp only [Option.map_some'] at hd'
      obtain rfl := Option.some.inj hd'
      rw [hstar i d hd]
  have hsorted : u.clearRestore.sorted_running
      = u.sorted_running.map (restartAssign
          (u.sorted_running.map (fun (x : Driver) => x.name))
          (headTotal u.sorted_running) u.config.restart_gap_s) := by
    have h1 : u.clearRestore.sorted_running
        = ((u.drivers.filter (fun d => d.status == DriverStatus.RUNNING)).map
            (restartAssign (u.sorted_running.map (fun (x : Driver) => x.name))
              (headTotal u.sorted_running)
              u.config.restart_gap_s)).insertionSort byTotalTime := by
      rw [sorted_running_def, hdrv,
        filter_running_map (restartAssign_status _ _ _)]
    rw [h1]
    refine eq_of_perm_sorted_strict _ _ ?_ ?_ ?_
    · exact (List.perm_insertionSort _ _).trans
        (List.Perm.map _ (List.perm_insertionSort byTotalTime _)).symm
    · exact List.sorted_insertionSort byTotalTime _
    · refine pairwise_lt_of_get_total _
        (fun i => headTotal u.sorted_running
          + (i : ℚ) * u.config.restart_gap_s) hLget ?_
      intro i j hij
      have : (i : ℚ) * u.config.restart_gap_s
          < (j : ℚ) * u.config.restart_gap_s := by
        refine mul_lt_mul_of_pos_right ?_ hgap
        exact_mod_cast hij
      dsimp only
      linarith
  refine ⟨by rw [hEq], ?_, ?_, ?_⟩
  · rw [hsorted, List.map_map]
    refine List.map_congr_left ?_
    intro d hd
    show (restartAssign _ _ _ d).name = d.name
    exact restartAssign_name _ _ _ d
  · intro i d hd
    refine ⟨restartAssign (u.sorted_running.map (fun (x : Driver) => x.name))
      (headTotal u.sorted_running) u.config.restart_gap_s d, ?_, ?_⟩
    · rw [hdrv, findDriver_map (restartAssign_name _ _ _)]
      rw [findDriver_of_mem_nodup hnodup
        (mem_drivers_of_mem_sorted_running (List.get?_mem hd)).1]
      rfl
    · rw [hstar i d hd]
  · rw [hsorted]
    refine chain_gap_of_get_total _ _
      (fun i => headTotal u.sorted_running
        + (i : ℚ) * u.config.restart_gap_s) hLget ?_
    intro i
    have : ((i : ℚ) + 1) * u.config.restart_gap_s
        = (i : ℚ) * u.config.restart_gap_s + u.config.restart_gap_s := by
      ring
    dsimp only
    push_cast
    linarith

theorem clearRestore_restores_of_frames (t u : RaceSimulation)
    (hd : u.drivers = t.drivers)
    (hm : u.restart_memento = t.restart_memento)
    (hc : u.config = t.config)
    (hmem : t.restart_memento
      = some (t.sorted_running.map (fun (d : Driver) => d.name)))
    (hnodup : (t.drivers.map (fun (d : Driver) => d.name)).Nodup)
    (hgap : 0 < t.config.restart_gap_s)
    (hrun : t.sorted_running ≠ []) :
    u.clearRestore.restart_memento = none ∧
    u.clearRestore.sorted_running.map (fun (d : Driver) => d.name)
      = t.sorted_running.map (fun (d : Driver) => d.name) ∧
    (∀ i d, t.sorted_running.get? i = some d →
      ∃ d', findDriver u.clearRestore.drivers d.name = some d' ∧
        d'.total_time_s
          = headTotal t.sorted_running + (i : ℚ) * t.config.restart_gap_s) ∧
    List.Chain' (fun a b =>
      a.total_time_s + t.config.restart_gap_s ≤ b.total_time_s)
      u.clearRestore.sorted_running := by
  have hsr : u.sorted_running = t.sorted_running := sorted_running_congr hd
  obtain ⟨r1, r2, r3, r4⟩ := clearRestore_restores u
    (by rw [hm, hmem, hsr]) (by rw [hd]; exact hnodup)
    (by rw [hc]; exact hgap) (by rw [hsr]; exact hrun)
  rw [hc] at r4
  refine ⟨r1, ?_, ?_, r4⟩
  · rw [r2, hsr]
  · intro i d hd'
    obtain ⟨d', h1, h2⟩ := r3 i d (by rw [hsr]; exact hd')
    exact ⟨d', h1, by rw [h2, hsr, hc]⟩

theorem clear_red_flag_restores (t : RaceSimulation)
    (hmem : t.restart_memento
      = some (t.sorted_running.map (fun (d : Driver) => d.name)))
    (hnodup : (t.drivers.map (fun (d : Driver) => d.name)).Nodup)
    (hgap : 0 < t.config.restart_gap_s)
    (hrun : t.sorted_running ≠ []) :
    t.clear_red_flag.restart_memento = none ∧
    t.clear_red_flag.sorted_running.map (fun (d : Driver) => d.name)
      = t.sorted_running.map (fun (d : Driver) => d.name) ∧
    (∀ i d, t.sorted_running.get? i = some d →
      ∃ d', findDriver t.clear_red_flag.drivers d.name = some d' ∧
        d'.total_time_s
          = headTotal t.sorted_running + (i : ℚ) * t.config.restart_gap_s) ∧
    List.Chain' (fun a b =>
      a.total_time_s + t.config.restart_gap_s ≤ b.total_time_s)
      t.clear_red_flag.sorted_running := by
  unfold RaceSimulation.clear_red_flag
  dsimp only
  split
  · obtain ⟨f1, -, -, -, -, -, f7, f8, -⟩ :=
      set_flag_frame { t with red_flag_active := false } FlagState.GREEN
    exact clearRestore_restores_of_frames t _ f1 f7 f8 hmem hnodup hgap hrun
  · exact clearRestore_restores_of_frames t _ rfl rfl rfl hmem hnodup hgap hrun

theorem redFlagEntry_config (s : RaceSimulation) :
    (s.redFlagEntry).config = s.config := by
  unfold RaceSimulation.redFlagEntry
  dsimp only [RaceSimulation.log]
  exact (set_flag_frame _ _).2.2.2.2.2.2.2.1

/-- C2: a red flag triggered by a lap step captures the pre-stoppage running
order in the memento; the explicit external `clear_red_flag` call then
discards the memento, restores exactly that running-order name sequence
(every captured competitor is still RUNNING, the stoppage not changing any
status), and re-derives each restarted competitor's total time as
`leaderTime + positionIndex * restart_gap_s`, so adjacent restarted
competitors are separated by at least the configured restart gap. -/
theorem c2_red_flag_round_trip (s s' : RaceSimulation)
    (hstart : s.started = true) (hfin : s.finished = false)
    (hred : s.red_flag_active = false)
    (hfia : ¬ s.fiaExceeded)
    (hcool : s.config.red_flag_cooldown_laps ≤ s.lap_index - s.last_red_flag_lap)
    (hdraw : s.rng.seq s.rng.idx < s.config.red_flag_chance_per_lap)
    (hnodup : (s.drivers.map (fun (d : Driver) => d.name)).Nodup)
    (hgap : 0 < s.config.restart_gap_s)
    (hrun : s.sorted_running ≠ [])
    (h : s.step_lap = Except.ok s') :
    s'.restart_memento
      = some (s.sorted_running.map (fun (d : Driver) => d.name)) ∧
    s'.clear_red_flag.restart_memento = none ∧
    s'.clear_red_flag.sorted_running.map (fun (d : Driver) => d.name)
      = s.sorted_running.map (fun (d : Driver) => d.name) ∧
    (∀ i d, s'.sorted_running.get? i = some d →
      ∃ d', findDriver s'.clear_red_flag.drivers d.name = some d' ∧
        d'.total_time_s
          = headTotal s'.sorted_running + (i : ℚ) * s.config.restart_gap_s) ∧
    List.Chain' (fun a b =>
      a.total_time_s + s.config.restart_gap_s ≤ b.total_time_s)
      s'.clear_red_flag.sorted_running := by
  have hs' : ({ s with rng := { seq := s.rng.seq, idx := s.rng.idx + 1 } }
      : RaceSimulation).redFlagEntry = s' := by
    unfold RaceSimulation.step_lap at h
    rw [if_neg (show ¬(s.started = false) by simp [hstart])] at h
    rw [if_neg (show ¬(s.finished = true) by simp [hfin])] at h
    rw [if_neg (show ¬(s.red_flag_active = true) by simp [hred])] at h
    rw [if_neg hfia, if_pos hcool] at h
    rw [show s.rng.next
      = (s.rng.seq s.rng.idx, { seq := s.rng.seq, idx := s.rng.idx + 1 })
      from rfl] at h
    dsimp only [] at h
    rw [if_pos hdraw] at h
    exact Except.ok.inj h
  obtain ⟨g1, g2, g3, g4, g5, g6⟩ :=
    redFlagEntry_spec ({ s with rng := { seq := s.rng.seq, idx := s.rng.idx + 1 } }
      : RaceSimulation)
  have hcfg' : s'.config = s.config := by
    rw [← hs']
    exact redFlagEntry_config _
  rw [hs'] at g1 g2 g3 g4 g5 g6
  have hnames : s'.drivers.map (fun (d : Driver) => d.name)
      = s.drivers.map (fun (d : Driver) => d.name) := by
    rw [g1, List.map_map]
    refine List.map_congr_left ?_
    intro d hd
    simp only [Function.comp]
    split
    · rfl
    · rfl
  have hsr' : s'.sorted_running
      = s.sorted_running.map (shiftTotal (redStopSeconds ({ s with
          rng := { seq := s.rng.seq, idx := s.rng.idx + 1 } }
            : RaceSimulation))) := by
    rw [sorted_running_def, g1, filter_running_redmap, insertionSort_shift]
    rfl
  have hord : s'.sorted_running.map (fun (d : Driver) => d.name)
      = s.sorted_running.map (fun (d : Driver) => d.name) := by
    rw [hsr', List.map_map]
    rfl
  have hmem_t : s'.restart_memento
      = some (s'.sorted_running.map (fun (d : Driver) => d.name)) := by
    rw [hord]
    exact g4
  have hnodup_t : (s'.drivers.map (fun (d : Driver) => d.name)).Nodup := by
    rw [hnames]
    exact hnodup
  have hrun_t : s'.sorted_running ≠ [] := by
    rw [hsr']
    intro hc
    exact hrun (List.map_eq_nil.mp hc)
  obtain ⟨r1, r2, r3, r4⟩ := clear_red_flag_restores s' hmem_t hnodup_t
    (by rw [hcfg']; exact hgap) hrun_t
  rw [hcfg'] at r4
  refine ⟨?_, r1, ?_, ?_, r4⟩
  · rw [hmem_t, hord]
  · rw [r2, hord]
  · intro i d hd
    obtain ⟨d', h1, h2⟩ := r3 i d hd
    exact ⟨d', h1, by rw [h2, hcfg']⟩

theorem c2_witness :
    ∃ s' : RaceSimulation, fixSimRF.step_lap = Except.ok s' ∧
      (s'.restart_memento
        = some (fixSimRF.sorted_running.map (fun (d : Driver) => d.name)) ∧
      s'.clear_red_flag.restart_memento = none ∧
      s'.clear_red_flag.sorted_running.map (fun (d : Driver) => d.name)
        = fixSimRF.sorted_running.map (fun (d : Driver) => d.name) ∧
      (∀ i d, s'.sorted_running.get? i = some d →
        ∃ d', findDriver s'.clear_red_flag.drivers d.name = some d' ∧
          d'.total_time_s
            = headTotal s'.sorted_running
              + (i : ℚ) * fixSimRF.config.restart_gap_s) ∧
      List.Chain' (fun a b =>
        a.total_time_s + fixSimRF.config.restart_gap_s ≤ b.total_time_s)
        s'.clear_red_flag.sorted_running) := by
  obtain ⟨s', hs'⟩ := @step_lap_ok_of_started fixSimRF rfl
  exact ⟨s', hs', c2_red_flag_round_trip fixSimRF s' rfl rfl rfl (by decide)
    (by decide) (by decide) (by decide) (by decide) (by decide) hs'⟩

/-! ### the yellow-flag order enforcement -/

theorem findDriver_name {l : List Driver} {n : String} {d : Driver}
    (h : findDriver l n = some d) : d.name = n := by
  have := List.find?_some h
  simpa using this

theorem findDriver_mem {l : List Driver} {n : String} {d : Driver}
    (h : findDriver l n = some d) : d ∈ l :=
  List.mem_of_find?_eq_some h

theorem updateDriver_names {n : String} {f : Driver → Driver}
    (hf : ∀ e, (f e).name = e.name) :
    ∀ l : List Driver,
      (updateDriver n f l).map (fun (d : Driver) => d.name)
        = l.map (fun (d : Driver) => d.name) := by
  intro l
  induction l with
  | nil => rfl
  | cons x xs ih =>
    unfold updateDriver
    by_cases hx : x.name = n
    · rw [if_pos hx]
      simp [hf]
    · rw [if_neg hx]
      simp only [List.map_cons]
      rw [ih]

theorem findDriver_updateDriver_ne {m n : String} {f : Driver → Driver}
    (hf : ∀ e, (f e).name = e.name) (hne : m ≠ n) :
    ∀ l : List Driver, findDriver (updateDriver n f l) m = findDriver l m := by
  intro l
  induction l with
  | nil => rfl
  | cons x xs ih =>
    unfold updateDriver
    by_cases hx : x.name = n
    · rw [if_pos hx]
      unfold findDriver
      rw [List.find?_cons, List.find?_cons]
      have h1 : ((f x).name == m) = false := by
        refine beq_eq_false_iff_ne.mpr ?_
        rw [hf, hx]
        exact fun he => hne he.symm
      have h2 : (x.name == m) = false := by
        refine beq_eq_false_iff_ne.mpr ?_
        rw [hx]
        exact fun he => hne he.symm
      rw [h1, h2]
    · rw [if_neg hx]
      unfold findDriver
      rw [List.find?_cons, List.find?_cons]
      rcases h : (x.name == m) with _ | _
      · exact ih
      · rfl

theorem findDriver_updateDriver_self {n : String} {f : Driver → Driver}
    (hf : ∀ e, (f e).name = e.name) :
    ∀ (l : List Driver) (d : Driver), findDriver l n = some d →
      findDriver (updateDriver n f l) n = some (f d) := by
  intro l
  induction l with
  | nil =>
    intro d h
    simp [findDriver] at h
  | cons x xs ih =>
    intro d h
    unfold updateDriver
    by_cases hx : x.name = n
    · rw [if_pos hx]
      unfold findDriver at h ⊢
      rw [List.find?_cons] at h
      rw [List.find?_cons]
      have hbx : (x.name == n) = true := by simp [hx]
      rw [hbx] at h
      dsimp only at h
      obtain rfl := Option.some.inj h
      have hbf : ((f x).name == n) = true := by simp [hf, hx]
      rw [hbf]
    · rw [if_neg hx]
      unfold findDriver at h ⊢
      rw [List.find?_cons] at h
      rw [List.find?_cons]
      have hbx : (x.name == n) = false := by simp [hx]
      rw [hbx] at h
      dsimp only at h
      rw [hbx]
      exact ih d h

theorem enforceStep_none (gap : ℚ) (D : List Driver) (n : String)
    {d : Driver} (hdn : findDriver D n = some d) :
    enforceStep gap (D, none) n = (D, some d.total_time_s) := by
  unfold enforceStep
  dsimp only
  rw [hdn]

theorem enforceStep_some (gap : ℚ) (D : List Driver) (p : ℚ) (n : String)
    {d : Driver} (hdn : findDriver D n = some d) :
    enforceStep gap (D, some p) n
      = (updateDriver n
          (fun e => { e with
            total_time_s := max d.total_time_s (p + gap) }) D,
         some (max d.total_time_s (p + gap))) := by
  unfold enforceStep
  dsimp only
  rw [hdn]

theorem driversMono_names {D E : List Driver} (h : DriversMono D E) :
    E.map (fun (d : Driver) => d.name) = D.map (fun (d : Driver) => d.name) := by
  obtain ⟨hlen, hpt⟩ := h
  refine List.ext_get? ?_
  intro i
  rw [List.get?_map, List.get?_map]
  rcases hD : D.get? i with _ | d
  · have hE : E.get? i = none := by
      rw [List.get?_eq_none] at hD ⊢
      omega
    rw [hE]
  · obtain ⟨d', hd', hn, -, -, -, -, -⟩ := hpt i d hD
    rw [hd']
    simp [hn]

theorem driversMono_rev {D E : List Driver} (h : DriversMono D E) :
    ∀ j d', E.get? j = some d' → ∃ d, D.get? j = some d ∧
      d'.name = d.name ∧ d'.status = d.status ∧
      d.total_time_s ≤ d'.total_time_s := by
  obtain ⟨hlen, hpt⟩ := h
  intro j d' hd'
  rcases hD : D.get? j with _ | d
  · exfalso
    rw [List.get?_eq_none] at hD
    have : E.get? j = none := List.get?_eq_none.mpr (by omega)
    rw [this] at hd'
    exact Option.noConfusion hd'
  · obtain ⟨d'', hd'', hn, hs, -, -, -, ht⟩ := hpt j d hD
    rw [hd'] at hd''
    obtain rfl := Option.some.inj hd''
    exact ⟨d, rfl, hn, hs, ht⟩

theorem loopRel_rev {s0 : RaceSimulation} {m m' : Mut} (h : LoopRel s0 m m') :
    ∀ j d', m'.drivers.get? j = some d' → ∃ d, m.drivers.get? j = some d ∧
      d'.name = d.name ∧
      (d'.status = DriverStatus.RUNNING → d.status = DriverStatus.RUNNING) := by
  obtain ⟨-, hlen, hpt⟩ := h
  intro j d' hd'
  rcases hD : m.drivers.get? j with _ | d
  · exfalso
    rw [List.get?_eq_none] at hD
    have : m'.drivers.get? j = none := List.get?_eq_none.mpr (by omega)
    rw [this] at hd'
    exact Option.noConfusion hd'
  · obtain ⟨d'', hd'', hn, -, -, hr, -, -⟩ := hpt j d hD
    rw [hd'] at hd''
    obtain rfl := Option.some.inj hd''
    exact ⟨d, rfl, hn, hr⟩

theorem loopRel_names {s0 : RaceSimulation} {m m' : Mut} (h : LoopRel s0 m m') :
    m'.drivers.map (fun (d : Driver) => d.name)
      = m.drivers.map (fun (d : Driver) => d.name) := by
  obtain ⟨-, hlen, hpt⟩ := h
  refine List.ext_get? ?_
  intro i
  rw [List.get?_map, List.get?_map]
  rcases hD : m.drivers.get? i with _ | d
  · have hE : m'.drivers.get? i = none := by
      rw [List.get?_eq_none] at hD ⊢
      omega
    rw [hE]
  · obtain ⟨d', hd', hn, -, -, -, -, -⟩ := hpt i d hD
    rw [hd']
    simp [hn]

theorem driversMono_findDriver_status {D E : List Driver}
    (h : DriversMono D E)
    (hnd : (D.map (fun (x : Driver) => x.name)).Nodup) (n : String) :
    (match findDriver E n with
     | some d => d.status == DriverStatus.RUNNING
     | none => false)
    = (match findDriver D n with
       | some d => d.status == DriverStatus.RUNNING
       | none => false) := by
  have hnames := driversMono_names h
  have hndE : (E.map (fun (x : Driver) => x.name)).Nodup := by
    rw [hnames]
    exact hnd
  rcases hD : findDriver D n with _ | d
  · have hE : findDriver E n = none := by
      unfold findDriver at hD ⊢
      rw [List.find?_eq_none] at hD ⊢
      intro x hx
      have hxn : x.name ∈ D.map (fun (y : Driver) => y.name) := by
        rw [← hnames]
        exact List.mem_map_of_mem _ hx
      obtain ⟨y, hy, hyx⟩ := List.mem_map.mp hxn
      have := hD y hy
      simp only [beq_iff_eq] at this ⊢
      rw [← hyx]
      exact this
    rw [hE]
  · obtain ⟨j, hj⟩ := List.mem_iff_get?.mp (findDriver_mem hD)
    obtain ⟨d', hd', hn, hs, -, -, -, -⟩ := h.2 j d hj
    have hE : findDriver E n = some d' := by
      have := findDriver_of_mem_nodup hndE (List.get?_mem hd')
      rw [hn, findDriver_name hD] at this
      exact this
    rw [hE]
    dsimp only
    rw [hs]

theorem enforce_loop_aux (gap : ℚ) :
    ∀ (ns : List String) (D : List Driver) (p : ℚ),
      (D.map (fun (d : Driver) => d.name)).Nodup →
      ns.Nodup →
      (∀ n ∈ ns, ∃ d, findDriver D n = some d) →
      (∀ m, m ∉ ns →
        findDriver (ns.foldl (enforceStep gap) (D, some p)).1 m
          = findDriver D m) ∧
      ((ns.filterMap (fun n =>
          findDriver (ns.foldl (enforceStep gap) (D, some p)).1 n)).map
            (fun (d : Driver) => d.name) = ns) ∧
      List.Chain' (fun a b => a + gap ≤ b)
        (p :: (ns.filterMap (fun n =>
          findDriver (ns.foldl (enforceStep gap) (D, some p)).1 n)).map
            (fun (d : Driver) => d.total_time_s)) := by
  intro ns
  induction ns with
  | nil =>
    intro D p hD hns hpres
    exact ⟨fun m hm => rfl, rfl, List.chain'_singleton p⟩
  | cons n ns' ih =>
    intro D p hD hns hpres
    obtain ⟨d, hdn⟩ := hpres n (List.mem_cons_self n ns')
    have hfname : ∀ e : Driver,
        ((fun (e : Driver) => { e with
          total_time_s := max d.total_time_s (p + gap) }) e).name = e.name :=
      fun e => rfl
    obtain ⟨hnotin, hnsnodup⟩ := List.nodup_cons.mp hns
    have hDnames : ((updateDriver n (fun e => { e with
          total_time_s := max d.total_time_s (p + gap) }) D).map
        (fun (x : Driver) => x.name)).Nodup := by
      rw [updateDriver_names hfname D]
      exact hD
    have hpres' : ∀ m ∈ ns', ∃ e, findDriver (updateDriver n
        (fun e => { e with
          total_time_s := max d.total_time_s (p + gap) }) D) m = some e := by
      intro m hm
      obtain ⟨e, he⟩ := hpres m (List.mem_cons_of_mem n hm)
      have hne : m ≠ n := fun hmn => hnotin (hmn ▸ hm)
      exact ⟨e, by rw [findDriver_updateDriver_ne hfname hne D]; exact he⟩
    obtain ⟨ihframe, ihnames, ihchain⟩ := ih (updateDriver n
        (fun e => { e with
          total_time_s := max d.total_time_s (p + gap) }) D)
      (max d.total_time_s (p + gap)) hDnames hnsnodup hpres'
    have hfold : ((n :: ns').foldl (enforceStep gap) (D, some p))
        = ns'.foldl (enforceStep gap) (updateDriver n
            (fun e => { e with
              total_time_s := max d.total_time_s (p + gap) }) D,
          some (max d.total_time_s (p + gap))) := by
      rw [List.foldl_cons, enforceStep_some gap D p n hdn]
    refine ⟨?_, ?_, ?_⟩
    · intro m hm
      have hm1 : m ∉ ns' := fun hh => hm (List.mem_cons_of_mem n hh)
      have hm2 : m ≠ n := fun hh => hm (hh ▸ List.mem_cons_self n ns')
      rw [hfold, ihframe m hm1, findDriver_updateDriver_ne hfname hm2 D]
    · rw [hfold, List.filterMap_cons, ihframe n hnotin,
        findDriver_updateDriver_self hfname D d hdn]
      dsimp only
      rw [List.map_cons, ihnames, findDriver_name hdn]
    · rw [hfold, List.filterMap_cons, ihframe n hnotin,
        findDriver_updateDriver_self hfname D d hdn]
      dsimp only
      rw [List.map_cons]
      exact List.chain'_cons.mpr ⟨le_max_right _ _, ihchain⟩

theorem enforceYellowOrder_spec (gap : ℚ) (ordered : List String)
    (D : List Driver)
    (hD : (D.map (fun (x : Driver) => x.name)).Nodup)
    (hord : ordered.Nodup)
    (hpres : ∀ n ∈ ordered, ∃ d, findDriver D n = some d) :
    (∀ m, m ∉ ordered →
      findDriver (enforceYellowOrder gap ordered D) m = findDriver D m) ∧
    ((ordered.filterMap (fun n =>
        findDriver (enforceYellowOrder gap ordered D) n)).map
          (fun (d : Driver) => d.name) = ordered) ∧
    List.Chain' (fun a b => a.total_time_s + gap ≤ b.total_time_s)
      (ordered.filterMap (fun n =>
        findDriver (enforceYellowOrder gap ordered D) n)) := by
  cases ordered with
  | nil => exact ⟨fun m hm => rfl, rfl, List.chain'_nil⟩
  | cons n ns' =>
    obtain ⟨d, hdn⟩ := hpres n (List.mem_cons_self n ns')
    have hfold : enforceYellowOrder gap (n :: ns') D
        = (ns'.foldl (enforceStep gap) (D, some d.total_time_s)).1 := by
      unfold enforceYellowOrder
      rw [List.foldl_cons, enforceStep_none gap D n hdn]
    obtain ⟨hnotin, hnodup'⟩ := List.nodup_cons.mp hord
    have hpres' : ∀ m ∈ ns', ∃ e, findDriver D m = some e :=
      fun m hm => hpres m (List.mem_cons_of_mem n hm)
    obtain ⟨ihframe, ihnames, ihchain⟩ :=
      enforce_loop_aux gap ns' D d.total_time_s hD hnodup' hpres'
    refine ⟨?_, ?_, ?_⟩
    · intro m hm
      rw [hfold]
      exact ihframe m (fun hh => hm (List.mem_cons_of_mem n hh))
    · rw [hfold, List.filterMap_cons, ihframe n hnotin, hdn]
      dsimp only
      rw [List.map_cons, ihnames, findDriver_name hdn]
    · rw [hfold, List.filterMap_cons, ihframe n hnotin, hdn]
      dsimp only
      refine (@List.chain'_map ℚ Driver (fun a b => a + gap ≤ b)
        (fun (x : Driver) => x.total_time_s) _).mp ?_
      rw [List.map_cons]
      exact ihchain

theorem enforce_sorted_spec (gap : ℚ) (ordered : List String)
    (E₀ : List Driver)
    (hnodupE : (E₀.map (fun (x : Driver) => x.name)).Nodup)
    (hord : ordered.Nodup)
    (hgap : 0 < gap)
    (hconn1 : ∀ n ∈ ordered, ∃ d, findDriver E₀ n = some d ∧
      d.status = DriverStatus.RUNNING)
    (hconn2 : ∀ d ∈ E₀, d.status = DriverStatus.RUNNING → d.name ∈ ordered) :
    (((enforceYellowOrder gap ordered E₀).filter
        (fun d => d.status == DriverStatus.RUNNING)).insertionSort byTotalTime).map
          (fun (d : Driver) => d.name) = ordered ∧
    List.Chain' (fun a b => a.total_time_s + gap ≤ b.total_time_s)
      (((enforceYellowOrder gap ordered E₀).filter
        (fun d => d.status == DriverStatus.RUNNING)).insertionSort byTotalTime) := by
  have hmono : DriversMono E₀ (enforceYellowOrder gap ordered E₀) :=
    enforceYellowOrder_mono gap ordered E₀
  have hEnames : (enforceYellowOrder gap ordered E₀).map
      (fun (d : Driver) => d.name) = E₀.map (fun (d : Driver) => d.name) :=
    driversMono_names hmono
  have hnodupE' : ((enforceYellowOrder gap ordered E₀).map
      (fun (d : Driver) => d.name)).Nodup := by
    rw [hEnames]
    exact hnodupE
  obtain ⟨sframe, snames, schain⟩ := enforceYellowOrder_spec gap ordered E₀
    hnodupE hord (fun n hn => ⟨(hconn1 n hn).choose, (hconn1 n hn).choose_spec.1⟩)
  have hLnodup : (ordered.filterMap (fun n =>
      findDriver (enforceYellowOrder gap ordered E₀) n)).Nodup := by
    refine List.Nodup.of_map (fun (d : Driver) => d.name) ?_
    rw [snames]
    exact hord
  have hFnodup : ((enforceYellowOrder gap ordered E₀).filter
      (fun d => d.status == DriverStatus.RUNNING)).Nodup := by
    refine List.Nodup.of_map (fun (d : Driver) => d.name) ?_
    refine List.Nodup.sublist
      (List.Sublist.map _ (List.filter_sublist _)) hnodupE'
  have hmemiff : ∀ x : Driver,
      x ∈ (enforceYellowOrder gap ordered E₀).filter
        (fun d => d.status == DriverStatus.RUNNING)
      ↔ x ∈ ordered.filterMap (fun n =>
        findDriver (enforceYellowOrder gap ordered E₀) n) := by
    intro x
    constructor
    · intro hx
      obtain ⟨hxE, hxs⟩ := List.mem_filter.mp hx
      obtain ⟨j, hj⟩ := List.mem_iff_get?.mp hxE
      obtain ⟨d, hd, hn, hs, -⟩ := driversMono_rev hmono j x hj
      have hdrun : d.status = DriverStatus.RUNNING := by
        rw [← hs]
        simpa using hxs
      have hname : x.name ∈ ordered := by
        rw [hn]
        exact hconn2 d (List.get?_mem hd) hdrun
      refine List.mem_filterMap.mpr ⟨x.name, hname, ?_⟩
      exact findDriver_of_mem_nodup hnodupE' hxE
    · intro hx
      obtain ⟨n, hn, hfind⟩ := List.mem_filterMap.mp hx
      have hxE : x ∈ enforceYellowOrder gap ordered E₀ := findDriver_mem hfind
      refine List.mem_filter.mpr ⟨hxE, ?_⟩
      obtain ⟨j, hj⟩ := List.mem_iff_get?.mp hxE
      obtain ⟨d, hd, hnm, hs, -⟩ := driversMono_rev hmono j x hj
      obtain ⟨d₀, hd₀, hd₀run⟩ := hconn1 n hn
      have : findDriver E₀ n = some d := by
        have h1 := findDriver_of_mem_nodup hnodupE (List.get?_mem hd)
        rw [← hnm, findDriver_name hfind] at h1
        exact h1
      rw [this] at hd₀
      obtain rfl := Option.some.inj hd₀
      rw [hs, hd₀run]
      rfl
  have hperm : ((enforceYellowOrder gap ordered E₀).filter
      (fun d => d.status == DriverStatus.RUNNING)).Perm
      (ordered.filterMap (fun n =>
        findDriver (enforceYellowOrder gap ordered E₀) n)) :=
    (List.perm_ext_iff_of_nodup hFnodup hLnodup).mpr hmemiff
  have hsorted_eq : ((enforceYellowOrder gap ordered E₀).filter
      (fun d => d.status == DriverStatus.RUNNING)).insertionSort byTotalTime
      = ordered.filterMap (fun n =>
        findDriver (enforceYellowOrder gap ordered E₀) n) := by
    refine eq_of_perm_sorted_strict _ _ ?_ ?_ ?_
    · exact (List.perm_insertionSort byTotalTime _).trans hperm
    · exact List.sorted_insertionSort byTotalTime _
    · refine (@List.chain'_iff_pairwise Driver
        (fun a b => a.total_time_s < b.total_time_s)
        ⟨fun a b c h1 h2 => lt_trans h1 h2⟩ _).mp ?_
      refine List.Chain'.imp ?_ schain
      intro a b hab
      linarith
  refine ⟨?_, ?_⟩
  · rw [hsorted_eq, snames]
  · rw [hsorted_eq]
    exact schain

theorem sorted_running_names_nodup (u : RaceSimulation)
    (h : (u.drivers.map (fun (d : Driver) => d.name)).Nodup) :
    (u.sorted_running.map (fun (d : Driver) => d.name)).Nodup := by
  have hFnd : ((u.drivers.filter
      (fun d => d.status == DriverStatus.RUNNING)).map
        (fun (d : Driver) => d.name)).Nodup :=
    List.Nodup.sublist
      (List.Sublist.map _ (List.filter_sublist u.drivers)) h
  have hperm : ((u.drivers.filter
      (fun d => d.status == DriverStatus.RUNNING)).map
        (fun (d : Driver) => d.name)).Perm
      (u.sorted_running.map (fun (d : Driver) => d.name)) :=
    List.Perm.map _ (List.perm_insertionSort byTotalTime _).symm
  exact hperm.nodup hFnd

theorem mem_sorted_running_of_running {u : RaceSimulation} {d : Driver}
    (hd : d ∈ u.drivers) (hs : d.status = DriverStatus.RUNNING) :
    d ∈ u.sorted_running := by
  unfold RaceSimulation.sorted_running
  refine (List.perm_insertionSort byTotalTime _).mem_iff.mpr ?_
  exact List.mem_filter.mpr ⟨hd, by simp [hs]⟩

theorem lapBody_yellow_order (t : RaceSimulation)
    (hya : t.is_yellow_active = true)
    (hnodup : (t.drivers.map (fun (d : Driver) => d.name)).Nodup)
    (hgap : 0 < t.config.yellow_min_gap_s)
    (hrun : t.sorted_running ≠ []) :
    t.lapBody.sorted_running.map (fun (d : Driver) => d.name)
      = (t.sorted_running.map (fun (d : Driver) => d.name)).filter
          (fun n => match findDriver t.lapBody.drivers n with
            | some d => d.status == DriverStatus.RUNNING
            | none => false) ∧
    List.Chain' (fun a b =>
      a.total_time_s + t.config.yellow_min_gap_s ≤ b.total_time_s)
      t.lapBody.sorted_running := by
  have hsr1 : (t.preLapFlag true).sorted_running = t.sorted_running :=
    sorted_running_congr (preLapFlag_frame t true).1
  have hob_ne : (t.preLapFlag true).sorted_running.map
      (fun (d : Driver) => d.name) ≠ [] := by
    rw [hsr1]
    intro hc
    exact hrun (List.map_eq_nil.mp hc)
  have hlb : t.lapBody = (((t.preLapFlag true).withMut
        ((t.preLapFlag true).runLapLoop true).1).postYellow
      ((t.preLapFlag true).sorted_running.map
        (fun (d : Driver) => d.name))).postLapWrap
      ((t.preLapFlag true).runLapLoop true).2 := by
    unfold RaceSimulation.lapBody
    dsimp only
    rw [hya]
    simp only [eq_self_iff_true, true_and, if_true]
    rw [if_pos hob_ne]
  have hrel : LoopRel (t.preLapFlag true)
      { drivers := (t.preLapFlag true).drivers,
        rng := (t.preLapFlag true).rng,
        events := (t.preLapFlag true).events }
      ((t.preLapFlag true).runLapLoop true).1 :=
    runLapLoop_rel (t.preLapFlag true) true
  have hnm : ((((t.preLapFlag true).withMut
        ((t.preLapFlag true).runLapLoop true).1).drivers).map
      (fun (d : Driver) => d.name))
      = (t.preLapFlag true).drivers.map (fun (d : Driver) => d.name) :=
    loopRel_names hrel
  have hnodup2 : ((((t.preLapFlag true).withMut
        ((t.preLapFlag true).runLapLoop true).1).drivers).map
      (fun (d : Driver) => d.name)).Nodup := by
    rw [hnm, (preLapFlag_frame t true).1]
    exact hnodup
  have hobnodup : ((t.preLapFlag true).sorted_running.map
      (fun (d : Driver) => d.name)).Nodup := by
    rw [hsr1]
    exact sorted_running_names_nodup t hnodup
  have hcfg : ((t.preLapFlag true).withMut
        ((t.preLapFlag true).runLapLoop true).1).config = t.config :=
    (preLapFlag_frame t true).2.2.2.2.2.2.1
  have hconn1 : ∀ n ∈ (((t.preLapFlag true).sorted_running.map
        (fun (d : Driver) => d.name)).filter
      (fun n => match findDriver ((t.preLapFlag true).withMut
          ((t.preLapFlag true).runLapLoop true).1).drivers n with
        | some d => d.status == DriverStatus.RUNNING
        | none => false)),
      ∃ d, findDriver ((t.preLapFlag true).withMut
          ((t.preLapFlag true).runLapLoop true).1).drivers n = some d ∧
        d.status = DriverStatus.RUNNING := by
    intro n hn
    have hp := (List.mem_filter.mp hn).2
    rcases hf : findDriver ((t.preLapFlag true).withMut
        ((t.preLapFlag true).runLapLoop true).1).drivers n with _ | d
    · rw [hf] at hp
      dsimp only at hp
      exact absurd hp (by simp)
    · rw [hf] at hp
      dsimp only at hp
      exact ⟨d, rfl, by simpa using hp⟩
  have hconn2 : ∀ d ∈ ((t.preLapFlag true).withMut
        ((t.preLapFlag true).runLapLoop true).1).drivers,
      d.status = DriverStatus.RUNNING →
      d.name ∈ (((t.preLapFlag true).sorted_running.map
        (fun (d : Driver) => d.name)).filter
      (fun n => match findDriver ((t.preLapFlag true).withMut
          ((t.preLapFlag true).runLapLoop true).1).drivers n with
        | some d => d.status == DriverStatus.RUNNING
        | none => false)) := by
    intro d hd hds
    obtain ⟨j, hj⟩ := List.mem_iff_get?.mp hd
    obtain ⟨d₀, hd₀, hname, hrunning⟩ := loopRel_rev hrel j d hj
    have hd₀run : d₀.status = DriverStatus.RUNNING := hrunning hds
    have hd₀mem : d₀ ∈ (t.preLapFlag true).drivers := List.get?_mem hd₀
    have hmemob : d.name ∈ (t.preLapFlag true).sorted_running.map
        (fun (d : Driver) => d.name) := by
      rw [hname]
      exact List.mem_map_of_mem _
        (mem_sorted_running_of_running hd₀mem hd₀run)
    refine List.mem_filter.mpr ⟨hmemob, ?_⟩
    have hfindd : findDriver ((t.preLapFlag true).withMut
        ((t.preLapFlag true).runLapLoop true).1).drivers d.name = some d :=
      findDriver_of_mem_nodup hnodup2 hd
    rw [hfindd]
    simp [hds]
  obtain ⟨e1, e2⟩ := enforce_sorted_spec t.config.yellow_min_gap_s
    (((t.preLapFlag true).sorted_running.map
        (fun (d : Driver) => d.name)).filter
      (fun n => match findDriver ((t.preLapFlag true).withMut
          ((t.preLapFlag true).runLapLoop true).1).drivers n with
        | some d => d.status == DriverStatus.RUNNING
        | none => false))
    (((t.preLapFlag true).withMut
        ((t.preLapFlag true).runLapLoop true).1).drivers)
    hnodup2 (List.Nodup.filter _ hobnodup) hgap hconn1 hconn2
  have hmono := enforceYellowOrder_mono t.config.yellow_min_gap_s
    (((t.preLapFlag true).sorted_running.map
        (fun (d : Driver) => d.name)).filter
      (fun n => match findDriver ((t.preLapFlag true).withMut
          ((t.preLapFlag true).runLapLoop true).1).drivers n with
        | some d => d.status == DriverStatus.RUNNING
        | none => false))
    (((t.preLapFlag true).withMut
        ((t.preLapFlag true).runLapLoop true).1).drivers)
  rw [hlb]
  rw [sorted_running_def, postLapWrap_drivers, postYellow_drivers, hcfg]
  refine ⟨?_, e2⟩
  rw [e1, ← hsr1]
  refine (List.filter_congr ?_).symm
  intro n hn
  exact driversMono_findDriver_status hmono hnodup2 n

/-- C3: across a lap stepped while the yellow flag is active (and not
interrupted by a red flag), the post-lap running order — by name — is
exactly the pre-lap running order restricted to the competitors still
RUNNING afterwards, and consecutive competitors in the post-lap order are
separated by at least the configured minimum yellow gap: the enforcement
walks the captured order and forces each total to at least the previous
total plus `yellow_min_gap_s`. -/
theorem c3_yellow_lap_order (s s' : RaceSimulation)
    (hstart : s.started = true) (hfin : s.finished = false)
    (hred : s.red_flag_active = false)
    (hfia : ¬ s.fiaExceeded)
    (hya : s.is_yellow_active = true)
    (hnodup : (s.drivers.map (fun (d : Driver) => d.name)).Nodup)
    (hgap : 0 < s.config.yellow_min_gap_s)
    (hrun : s.sorted_running ≠ [])
    (hnored : ¬ (s.config.red_flag_cooldown_laps
        ≤ s.lap_index - s.last_red_flag_lap)
      ∨ ¬ (s.rng.seq s.rng.idx < s.config.red_flag_chance_per_lap))
    (h : s.step_lap = Except.ok s') :
    s'.sorted_running.map (fun (d : Driver) => d.name)
      = (s.sorted_running.map (fun (d : Driver) => d.name)).filter
          (fun n => match findDriver s'.drivers n with
            | some d => d.status == DriverStatus.RUNNING
            | none => false) ∧
    List.Chain' (fun a b =>
      a.total_time_s + s.config.yellow_min_gap_s ≤ b.total_time_s)
      s'.sorted_running := by
  by_cases hcool : s.config.red_flag_cooldown_laps
      ≤ s.lap_index - s.last_red_flag_lap
  · have hdraw : ¬ (s.rng.seq s.rng.idx < s.config.red_flag_chance_per_lap) := by
      rcases hnored with hc | hd
      · exact absurd hcool hc
      · exact hd
    have hs' : ({ s with rng := { seq := s.rng.seq, idx := s.rng.idx + 1 } }
        : RaceSimulation).lapBody = s' := by
      unfold RaceSimulation.step_lap at h
      rw [if_neg (show ¬(s.started = false) by simp [hstart])] at h
      rw [if_neg (show ¬(s.finished = true) by simp [hfin])] at h
      rw [if_neg (show ¬(s.red_flag_active = true) by simp [hred])] at h
      rw [if_neg hfia, if_pos hcool] at h
      rw [show s.rng.next
        = (s.rng.seq s.rng.idx, { seq := s.rng.seq, idx := s.rng.idx + 1 })
        from rfl] at h
      dsimp only [] at h
      rw [if_neg hdraw] at h
      exact Except.ok.inj h
    obtain ⟨g1, g2⟩ := lapBody_yellow_order
      ({ s with rng := { seq := s.rng.seq, idx := s.rng.idx + 1 } }
        : RaceSimulation) hya hnodup hgap hrun
    rw [hs'] at g1 g2
    exact ⟨g1, g2⟩
  · have hs' : s.lapBody = s' := by
      unfold RaceSimulation.step_lap at h
      rw [if_neg (show ¬(s.started = false) by simp [hstart])] at h
      rw [if_neg (show ¬(s.finished = true) by simp [hfin])] at h
      rw [if_neg (show ¬(s.red_flag_active = true) by simp [hred])] at h
      rw [if_neg hfia, if_neg hcool] at h
      exact Except.ok.inj h
    obtain ⟨g1, g2⟩ := lapBody_yellow_order s hya hnodup hgap hrun
    rw [hs'] at g1 g2
    exact ⟨g1, g2⟩

theorem c3_witness :
    ∃ s' : RaceSimulation, fixYellowSim.step_lap = Except.ok s' ∧
      (s'.sorted_running.map (fun (d : Driver) => d.name)
        = (fixYellowSim.sorted_running.map (fun (d : Driver) => d.name)).filter
            (fun n => match findDriver s'.drivers n with
              | some d => d.status == DriverStatus.RUNNING
              | none => false) ∧
      List.Chain' (fun a b =>
        a.total_time_s + fixYellowSim.config.yellow_min_gap_s
          ≤ b.total_time_s) s'.sorted_running) := by
  obtain ⟨s', hs'⟩ := @step_lap_ok_of_started fixYellowSim rfl
  exact ⟨s', hs', c3_yellow_lap_order fixYellowSim s' rfl rfl rfl (by decide)
    (by decide) (by decide) (by decide) (by decide) (Or.inr (by decide)) hs'⟩

end PitWall
